import Mathlib

/-!
# The Passport provider of oauth2-proxy (`providers/passport.go`)

A shallow embedding of the provider: the authorization table and its
longest-prefix lookup, request validation against the process-wide group
cache, claim extraction, code redemption, login-URL construction and provider
construction; with it the StatsD counters of `metrics.go` and the cookie-domain
resolver of `pkg/cookies`.

Conventions of the embedding

* a Go `string` is its sequence of bytes (`GoString`);
* a Go `map` is a list of bindings with pairwise distinct keys; the order of
  the list stands for the order in which one `range` loop visits the map, which
  Go leaves unspecified, so statements quantify over every such list;
* a nil slice and an empty slice are both the empty list, a nil map is the
  empty list of bindings, a nilable pointer is an `Option`;
* a Go result pair `(x, err)` is a Lean pair whose second component is
  `Option GoError` (`none` is the nil error);
* a call that can dereference nil or fail a type assertion returns an
  `Outcome`, whose `panicked` case is the run-time panic;
* functions of the Go standard library and of third-party packages that do I/O
  or cryptography are fields of `Lib` (pure functions) and `World` (process
  environment, file system, network); logging is not modelled.
-/

set_option linter.unusedVariables false

namespace Passport

/-! ## Strings, maps, errors, panics -/

/-- One byte of a Go string. -/
abbrev Byte := UInt8

/-- A Go string: an immutable sequence of bytes. -/
abbrev GoString := List Byte

/-- The Go string written by a string literal (its UTF-8 bytes). -/
def str (s : String) : GoString := s.toUTF8.data.toList

/-- A Go map: bindings with pairwise distinct keys, in the order one `range`
loop happens to visit them. -/
abbrev GoMap (κ ν : Type) := List (κ × ν)

/-- The keys of a map, in iteration order. -/
def GoMap.keys {κ ν : Type} (m : GoMap κ ν) : List κ := m.map Prod.fst

/-- Well-formedness of a map: no key is bound twice. -/
def GoMap.WF {κ ν : Type} (m : GoMap κ ν) : Prop := (GoMap.keys m).Nodup

instance {κ ν : Type} [DecidableEq κ] (m : GoMap κ ν) : Decidable (GoMap.WF m) :=
  inferInstanceAs (Decidable (GoMap.keys m).Nodup)

/-- The comma-ok lookup `v, ok := m[k]`: `none` when `k` is not bound. -/
def GoMap.get {κ ν : Type} [DecidableEq κ] : GoMap κ ν → κ → Option ν
  | [], _ => none
  | (k', v) :: rest, k => if k' = k then some v else GoMap.get rest k

/-- The assignment `m[k] = v`: replaces the binding of `k` or adds one. -/
def GoMap.set {κ ν : Type} [DecidableEq κ] : GoMap κ ν → κ → ν → GoMap κ ν
  | [], k, v => [(k, v)]
  | (k', v') :: rest, k, v =>
    if k' = k then (k', v) :: rest else (k', v') :: GoMap.set rest k v

/-- A Go `error` value. Package-level error variables are compared by
identity, so they are kept apart from errors created at call time. -/
inductive GoError where
  /-- A package-level error variable such as `ErrKeyFileNotSet`. -/
  | pkgVar (msg : GoString)
  /-- An error created when the call runs (`errors.New`, `fmt.Errorf`, or a
  library failure). -/
  | new (msg : GoString)
  deriving DecidableEq, Repr

/-- The method `err.Error()`. -/
def GoError.Error : GoError → GoString
  | .pkgVar msg => msg
  | .new msg => msg

/-- The function `errors.New`. -/
def errorsNew (msg : String) : GoError := .new (str msg)

/-- The result of running Go code that may panic. -/
inductive Outcome (α : Type) where
  | returned (a : α)
  | panicked
  deriving DecidableEq, Repr

/-- Sequencing of code that may panic. -/
def Outcome.bind {α β : Type} : Outcome α → (α → Outcome β) → Outcome β
  | .returned a, f => f a
  | .panicked, _ => .panicked

/-- The function `strings.HasPrefix`. -/
def HasPrefix (s pre : GoString) : Bool := pre.isPrefixOf s

/-- The function `strings.Split` for a separator of one byte: the pieces of
`s` between the occurrences of `sep`, one more piece than occurrences. -/
def Split (s : GoString) (sep : Byte) : List GoString :=
  match s with
  | [] => [[]]
  | c :: cs =>
    if c = sep then [] :: Split cs sep
    else match Split cs sep with
      | [] => [[c]]
      | piece :: pieces => (c :: piece) :: pieces

/-! ## Data model -/

/-- The type `url.URL` of net/url (the fields the provider touches and those
`String` prints). -/
structure URL where
  Scheme : GoString := []
  Opaque : GoString := []
  User : Option (GoString × Option GoString) := none
  Host : GoString := []
  Path : GoString := []
  RawPath : GoString := []
  ForceQuery : Bool := false
  RawQuery : GoString := []
  Fragment : GoString := []
  RawFragment : GoString := []
  deriving DecidableEq, Repr

/-- The type `url.Values` and `http.Header`: a map from a name to the list of
its values. -/
abbrev Values := GoMap GoString (List GoString)

/-- The method `Values.Add`: appends `value` to the values of `key`. -/
def Values.Add (v : Values) (key value : GoString) : Values :=
  GoMap.set v key (((GoMap.get v key).getD []) ++ [value])

/-- The method `Values.Set`: makes `value` the only value of `key`. -/
def Values.Set (v : Values) (key value : GoString) : Values :=
  GoMap.set v key [value]

/-- The type `sessions.SessionState`.
Modelled from the spec: the declaration is in `pkg/apis/sessions`, outside the
files at hand; the fields are those of the spec's data model. -/
structure SessionState where
  AccessToken : GoString := []
  IDToken : GoString := []
  RefreshToken : GoString := []
  Email : GoString := []
  User : GoString := []
  PreferredUsername : GoString := []
  Groups : List GoString := []
  ExpiresOn : Option Int := none
  CreatedAt : Option Int := none
  deriving DecidableEq, Repr

/-- The type `http.Request`, as far as the provider reads and writes it. A
request always has a URL (net/http sets it on every request it builds). -/
structure Request where
  Method : GoString := []
  URL : URL := {}
  Host : GoString := []
  Header : Values := []
  Body : GoString := []
  deriving DecidableEq, Repr

/-- The type `options.PassportAuthConfiguration`: URI prefix to the groups
allowed under it (a `map[string][]string`, as the tests build it). -/
abbrev PassportAuthConfiguration := GoMap GoString (List GoString)

/-- An RSA public key (`rsa.PublicKey`). -/
structure RsaPublicKey where
  N : Nat
  E : Nat
  deriving DecidableEq, Repr

/-- The type `ProviderData`, as far as the Passport provider uses it (the
declaration is in `providers/provider_data.go`, outside the files at hand). -/
structure ProviderData where
  ProviderName : GoString := []
  LoginURL : Option URL := none
  RedeemURL : Option URL := none
  ProfileURL : Option URL := none
  ProtectedResource : Option URL := none
  ValidateURL : Option URL := none
  ClientID : GoString := []
  ClientSecret : GoString := []
  Scope : GoString := []
  EmailClaim : GoString := []
  GroupsClaim : GoString := []
  UserClaim : GoString := []
  noValidate : Bool := false
  deriving DecidableEq, Repr

/-- The type `PassportProvider`. The embedded `*ProviderData` is the value the
pointer refers to; `userGroups` is the `sync.Map` from email to `[]string`. -/
structure PassportProvider where
  ProviderData : ProviderData := {}
  userGroups : GoMap GoString (List GoString) := []
  auth : PassportAuthConfiguration := []
  publicKey : Option RsaPublicKey := none
  deriving DecidableEq, Repr

/-! ## Authorization table and request validation -/

/-- The loop of `getAllowedGroups`: one pass over the keys of the table,
keeping the longest key seen so far that is a prefix of `uri`. -/
def bestMatchLoop (uri : GoString) (keys : List GoString) (bestMatch : GoString) : GoString :=
  keys.foldl
    (fun bestMatch key =>
      if HasPrefix uri key then
        if bestMatch.length < key.length then key else bestMatch
      else bestMatch)
    bestMatch

/-- The method `PassportProvider.getAllowedGroups`. -/
def getAllowedGroups (p : PassportProvider) (uri : GoString) : GoMap GoString Bool :=
  let bestMatch := bestMatchLoop uri (GoMap.keys p.auth) []
  match GoMap.get p.auth bestMatch with
  | some groups => groups.foldl (fun res group => GoMap.set res group true) []
  | none => []

/-- The loop at the end of `ValidateRequest`: is some cached group bound to
`true` in the allowed set. -/
def anyGroupAllowed (allowedGroups : GoMap GoString Bool) : List GoString → Bool
  | [] => false
  | group :: rest =>
    match GoMap.get allowedGroups group with
    | some true => true
    | _ => anyGroupAllowed allowedGroups rest

/-- The expression `strings.Split(req.Host, ":")[0] + req.URL.Path`. -/
def requestURI (req : Request) : GoString :=
  (Split req.Host 58).headD [] ++ req.URL.Path

/-- The method `PassportProvider.ValidateRequest`; the session pointer may be
nil. -/
def ValidateRequest (p : PassportProvider) (req : Request) (s : Option SessionState) :
    Bool × Option GoError :=
  match s with
  | none => (false, some (errorsNew "session not established"))
  | some s =>
    let uri := requestURI req
    let allowedGroups := getAllowedGroups p uri
    match GoMap.get allowedGroups (str "*") with
    | some _ => (true, none)
    | none =>
      match GoMap.get p.userGroups s.Email with
      | none => (false, some (errorsNew "session need to be re-established"))
      | some groups =>
        if anyGroupAllowed allowedGroups groups then (true, none) else (false, none)


/-! ## Library and world -/

/-- A decoded JSON value, as go-simplejson and jwt hold it in an
`interface{}`; a number is kept as its text. -/
inductive Json where
  | null
  | bool (b : Bool)
  | number (text : GoString)
  | string (s : GoString)
  | array (elems : List Json)
  | object (fields : List (GoString × Json))
  deriving Repr

/-- The method `Json.Get` of go-simplejson: the value under `key` when the
receiver is an object that has it, a `Json` holding nil otherwise. -/
def Json.Get (j : Json) (key : GoString) : Json :=
  match j with
  | .object fields =>
    match GoMap.get fields key with
    | some val => val
    | none => .null
  | _ => .null

/-- The method `Json.String` of go-simplejson: a type assertion to `string`. -/
def Json.String (j : Json) : GoString × Option GoError :=
  match j with
  | .string s => (s, none)
  | _ => ([], some (errorsNew "type assertion to string failed"))

/-- The loop of `Json.StringArray`: nil becomes the empty string, a string is
kept, anything else fails the whole call. -/
def stringArrayLoop : List Json → List GoString → List GoString × Option GoError
  | [], retArr => (retArr, none)
  | .null :: rest, retArr => stringArrayLoop rest (retArr ++ [[]])
  | .string s :: rest, retArr => stringArrayLoop rest (retArr ++ [s])
  | _ :: _, _ => ([], some (errorsNew "type assertion to []string failed"))

/-- The method `Json.StringArray` of go-simplejson. -/
def Json.StringArray (j : Json) : List GoString × Option GoError :=
  match j with
  | .array elems => stringArrayLoop elems []
  | _ => ([], some (errorsNew "type assertion to []interface{} failed"))

/-- The type `jwt.Token`, as far as the provider reads it; `Claims` are the
`jwt.MapClaims` of the token. -/
structure Token where
  Raw : GoString
  Valid : Bool
  Claims : List (GoString × Json)

/-- The result of `x509.ParsePKIXPublicKey`: an RSA key or a key of another
algorithm. -/
inductive PublicKey where
  | rsa (key : RsaPublicKey)
  | other
  deriving DecidableEq, Repr

/-- The type `providerDefaults` (declared in `providers/provider_data.go`). -/
structure providerDefaults where
  name : GoString := []
  loginURL : Option URL := none
  redeemURL : Option URL := none
  profileURL : Option URL := none
  validateURL : Option URL := none
  scope : GoString := []
  deriving DecidableEq, Repr

/-- An HTTP response as `apiRequest` reads it: the status code and the result
of `io.ReadAll(resp.Body)`. -/
structure Response where
  StatusCode : Int
  Body : Except GoError GoString

/-- Pure functions of the Go standard library, of third-party packages and of
files of this package that are not at hand. Each is a parameter of the model:
the theorems hold for every behaviour of these functions. Where Go returns a
value and an error of which the caller reads one, the result is an `Except`. -/
structure Lib where
  /-- The function `strings.ToLower`. -/
  ToLower : GoString → GoString
  /-- The method `(*url.URL).String`. -/
  URLString : URL → GoString
  /-- The function `url.ParseQuery`: the values that parsed and the first
  error met. -/
  ParseQuery : GoString → Values × Option GoError
  /-- The method `url.Values.Encode`. -/
  Encode : Values → GoString
  /-- The method `base64.StdEncoding.EncodeToString`. -/
  EncodeToString : GoString → GoString
  /-- The function `strconv.Quote`, the verb `%q` of package fmt. -/
  Quote : GoString → GoString
  /-- The function `jwt.Parse` with a key function that returns the given
  key. -/
  jwtParse : GoString → Option RsaPublicKey → Except GoError Token
  /-- The function `simplejson.NewJson`. -/
  NewJson : GoString → Except GoError Json
  /-- The functions `http.NewRequest` and `http.NewRequestWithContext`, given
  the method, the URL and the body. -/
  NewRequest : GoString → GoString → GoString → Except GoError Request
  /-- The function `pem.Decode`: the bytes of the first PEM block, if any. -/
  pemDecode : GoString → Option GoString
  /-- The function `x509.ParsePKIXPublicKey`. -/
  ParsePKIXPublicKey : GoString → Except GoError PublicKey
  /-- The function `yaml.Unmarshal` into a `PassportAuthConfiguration` that
  holds the given bindings. -/
  yamlUnmarshal : GoString → PassportAuthConfiguration → Except GoError PassportAuthConfiguration
  /-- The method `ProviderData.setProviderDefaults`. -/
  setProviderDefaults : ProviderData → providerDefaults → ProviderData
  /-- The variable `googleDefaultScope` (declared in `providers/google.go`). -/
  googleDefaultScope : GoString

/-- The world outside the process: environment variables, the file system and
the network. -/
structure World where
  /-- The function `os.Getenv`. -/
  Getenv : GoString → GoString
  /-- The function `os.ReadFile`. -/
  ReadFile : GoString → Except GoError GoString
  /-- The method `http.DefaultClient.Do`. -/
  Do : Request → Except GoError Response

/-- The verb `%d` of package fmt for an `int`. -/
def formatInt (i : Int) : GoString :=
  if i < 0 then str "-" ++ str (toString i.natAbs) else str (toString i.toNat)

/-! ## Provider construction -/

/-- The variable `passportProviderName`. -/
def passportProviderName : GoString := str "Passport"

/-- The variable `passportDefaultScope`. -/
def passportDefaultScope : GoString := str "profile email"

/-- The variable `ErrKeyFileNotSet`. -/
def ErrKeyFileNotSet : GoError := .pkgVar (str "key file not set")

/-- The method `PassportProvider.loadAllowed`: the provider after the call and
the error returned. What a failed `yaml.Unmarshal` may already have written to
the table is not modelled: `NewPassportProvider` drops the provider then. -/
def loadAllowed (lib : Lib) (w : World) (p : PassportProvider) :
    PassportProvider × Option GoError :=
  let auth := w.Getenv (str "AUTH_FILE")
  if auth ≠ [] then
    match w.ReadFile auth with
    | .error err =>
      (p, some (.new (str "auth file load err " ++ err.Error ++ str ", " ++ auth ++ str " ")))
    | .ok yamlFile =>
      match lib.yamlUnmarshal yamlFile p.auth with
      | .error err =>
        (p, some (.new (str "auth file unmarshall err " ++ err.Error ++ str ", " ++ auth
          ++ str " ")))
      | .ok auth' => ({ p with auth := auth' }, none)
  else (p, none)

/-- The method `PassportProvider.loadKey`: the provider after the call and the
error returned; the type assertion to `*rsa.PublicKey` panics on a key of
another algorithm. -/
def loadKey (lib : Lib) (w : World) (p : PassportProvider) :
    Outcome (PassportProvider × Option GoError) :=
  let passportKey := w.Getenv (str "PASSPORT_KEY")
  if passportKey = [] then .returned (p, some ErrKeyFileNotSet)
  else
    match w.ReadFile passportKey with
    | .error err => .returned (p, some err)
    | .ok b =>
      match lib.pemDecode b with
      | none => .returned (p, some (errorsNew "public key decode error"))
      | some blockBytes =>
        match lib.ParsePKIXPublicKey blockBytes with
        | .error err => .returned (p, some err)
        | .ok (.rsa key) => .returned ({ p with publicKey := some key }, none)
        | .ok .other => .panicked

/-- The function `NewPassportProvider`, called with a non-nil `*ProviderData`.
The result is the `ProviderData` the caller's pointer refers to after the call,
the provider returned (`none` is nil) and the error returned. -/
def NewPassportProvider (lib : Lib) (w : World) (p : ProviderData) :
    Outcome (ProviderData × Option PassportProvider × Option GoError) :=
  if p.LoginURL = none then .returned (p, none, some (errorsNew "login_url not set"))
  else if p.RedeemURL = none then .returned (p, none, some (errorsNew "redeem_url not set"))
  else if p.ProfileURL = none then .returned (p, none, some (errorsNew "profile_url not set"))
  else
    let p := lib.setProviderDefaults p
      { name := passportProviderName, scope := lib.googleDefaultScope }
    let p := { p with noValidate := true }
    let provider : PassportProvider := { ProviderData := p }
    match loadAllowed lib w provider with
    | (_, some err) => .returned (p, none, some err)
    | (provider, none) =>
      (loadKey lib w provider).bind fun r =>
        match r with
        | (_, some err) => .returned (p, none, some err)
        | (provider, none) => .returned (p, some provider, none)

/-! ## Code redemption -/

/-- The method `PassportProvider.apiRequest`. The error of a status other than
200 is `fmt.Errorf("got %d from %q %s", ...)`; it prints the redeem URL, so the
call panics there when that URL is nil. -/
def apiRequest (lib : Lib) (w : World) (p : PassportProvider) (req : Request) :
    Outcome (Option Json × Option GoError) :=
  match w.Do req with
  | .error err => .returned (none, some err)
  | .ok resp =>
    match resp.Body with
    | .error err => .returned (none, some err)
    | .ok body =>
      if resp.StatusCode ≠ 200 then
        match p.ProviderData.RedeemURL with
        | none => .panicked
        | some redeemURL =>
          .returned (none, some (.new (str "got " ++ formatInt resp.StatusCode ++ str " from "
            ++ lib.Quote (lib.URLString redeemURL) ++ str " " ++ body)))
      else
        match lib.NewJson body with
        | .error err => .returned (none, some err)
        | .ok data => .returned (some data, none)

/-- The form parameters `Redeem` posts. -/
def redeemParams (lib : Lib) (p : PassportProvider) (redirectURL code : GoString) : Values :=
  let params : Values := []
  let params := Values.Add params (str "redirect_uri") redirectURL
  let params := Values.Add params (str "client_id") p.ProviderData.ClientID
  let params := Values.Add params (str "client_secret") p.ProviderData.ClientSecret
  let params := Values.Add params (str "code") code
  let params := Values.Add params (str "grant_type") (str "authorization_code")
  match p.ProviderData.ProtectedResource with
  | some resource =>
    if lib.URLString resource ≠ [] then
      Values.Add params (str "resource") (lib.URLString resource)
    else params
  | none => params

/-- The three headers `Redeem` sets on its request (`Header.Set`; the names are
in canonical form already). -/
def redeemHeaders (lib : Lib) (p : PassportProvider) (req : Request) : Request :=
  let req := { req with Header := Values.Set req.Header (str "Accept") (str "application/json") }
  let req := { req with
    Header := Values.Set req.Header (str "Content-Type")
      (str "application/x-www-form-urlencoded") }
  let tokenStr := p.ProviderData.ClientID ++ str ":" ++ p.ProviderData.ClientSecret
  { req with
    Header := Values.Set req.Header (str "Authorization")
      (str "Basic " ++ lib.EncodeToString tokenStr) }

/-- The method `PassportProvider.Redeem`: the session returned (`none` is nil)
and the error returned. The code verifier is not used. -/
def Redeem (lib : Lib) (w : World) (p : PassportProvider)
    (redirectURL code codeVerifier : GoString) : Outcome (Option SessionState × Option GoError) :=
  if code = [] then .returned (none, some (errorsNew "missing code"))
  else
    let params := redeemParams lib p redirectURL code
    match p.ProviderData.RedeemURL with
    | none => .panicked
    | some redeemURL =>
      match lib.NewRequest (str "POST") (lib.URLString redeemURL) (lib.Encode params) with
      | .error err => .returned (none, some err)
      | .ok req =>
        let req := redeemHeaders lib p req
        (apiRequest lib w p req).bind fun r =>
          match r with
          | (_, some err) => .returned (none, some err)
          | (none, none) => .panicked
          | (some resp, none) =>
            let (accessToken, err) := (resp.Get (str "access_token")).String
            let (idToken, _) := (resp.Get (str "id_token")).String
            .returned (some { AccessToken := accessToken, IDToken := idToken }, err)

/-! ## Claim extraction -/

/-- The method `PassportProvider.getUserGroups`. The headers are set before
the error of `http.NewRequest` is looked at, so a failed `NewRequest` is a nil
dereference. -/
def getUserGroups (lib : Lib) (w : World) (p : PassportProvider) (token : GoString) :
    Outcome (List GoString × Option GoError) :=
  let params : Values := []
  let params := Values.Add params (str "client_id") p.ProviderData.ClientID
  let params := Values.Add params (str "client_secret") p.ProviderData.ClientSecret
  match p.ProviderData.ProfileURL with
  | none => .panicked
  | some profileURL =>
    match lib.NewRequest (str "GET") (lib.URLString profileURL) (lib.Encode params) with
    | .error _ => .panicked
    | .ok req =>
      let req := { req with
        Header := Values.Set req.Header (str "Accept") (str "application/json") }
      let req := { req with
        Header := Values.Set req.Header (str "Authorization") (str "Bearer " ++ token) }
      (apiRequest lib w p req).bind fun r =>
        match r with
        | (_, some err) => .returned ([], some err)
        | (none, none) => .panicked
        | (some json, none) =>
          let groupJson := json.Get (str "group")
          match groupJson.String with
          | (groups, none) => .returned (Split groups 44, none)
          | (_, some _) => .returned groupJson.StringArray

/-- The method `PassportProvider.GetEmailAddress`: the provider after the call
(its group cache may have a new entry), the email and the error returned. The
error of the group lookup is logged and dropped; the type assertion of the
`sub` claim to `string` panics when the claim is missing or not a string. -/
def GetEmailAddress (lib : Lib) (w : World) (p : PassportProvider) (s : Option SessionState) :
    Outcome (PassportProvider × GoString × Option GoError) :=
  match s with
  | none => .panicked
  | some s =>
    match lib.jwtParse s.AccessToken p.publicKey with
    | .error err => .returned (p, [], some err)
    | .ok token =>
      if token.Valid then
        match GoMap.get token.Claims (str "sub") with
        | some (.string sub) =>
          let login := lib.ToLower sub
          let loginParts := Split login 92
          if loginParts.length > 1 then
            let email := loginParts.getD 1 [] ++ str "@" ++ loginParts.getD 0 []
            (getUserGroups lib w p token.Raw).bind fun r =>
              .returned ({ p with userGroups := GoMap.set p.userGroups email r.1 }, email, none)
          else
            let email := loginParts.getD 0 [] ++ str "@local"
            .returned
              ({ p with userGroups := GoMap.set p.userGroups email [str "local"] }, email, none)
        | _ => .panicked
      else .returned (p, [], none)

/-! ## Login URL -/

/-- The query parameters `GetLoginURL` encodes into the URL it returns: those
parsed from the query of the base URL `a` (the parse error is dropped), then
`Set` and `Add` as in the source. -/
def loginParams (lib : Lib) (p : PassportProvider) (a : URL) (redirectURI state : GoString) :
    Values :=
  let params := (lib.ParseQuery a.RawQuery).1
  let params := Values.Set params (str "redirect_uri") redirectURI
  let params := Values.Add params (str "scope") p.ProviderData.Scope
  let params := Values.Set params (str "client_id") p.ProviderData.ClientID
  let params := Values.Set params (str "response_type") (str "code")
  Values.Add params (str "state") state

/-- The method `PassportProvider.GetLoginURL`: the provider after the call and
the URL string returned. `a` is a copy of `*p.LoginURL`, so the assignment to
`a.RawQuery` does not reach the provider; `nonce` and `extraParams` are not
read. -/
def GetLoginURL (lib : Lib) (p : PassportProvider) (redirectURI state nonce : GoString)
    (extraParams : Values) : Outcome (PassportProvider × GoString) :=
  match p.ProviderData.LoginURL with
  | none => .panicked
  | some loginURL =>
    let a := loginURL
    let params := loginParams lib p a redirectURI state
    let a := { a with RawQuery := lib.Encode params }
    .returned (p, lib.URLString a)

/-! ## A concrete library and world for the examples

The closed examples below need one library and one world. The functions here
compute what the Go functions compute on the inputs of the examples; the
general theorems do not use them. -/

/-- The function `strings.ToLower` on a string of ASCII bytes. -/
def asciiToLower (s : GoString) : GoString :=
  s.map fun c => if 65 ≤ c ∧ c ≤ 90 then c + 32 else c

/-- The byte `"0123456789ABCDEF"[n]`. -/
def upperHex (n : Nat) : Byte :=
  if n < 10 then UInt8.ofNat (48 + n) else UInt8.ofNat (55 + n)

/-- The bytes `url.QueryEscape` leaves as they are: letters, digits and
`-`, `_`, `.`, `~`. -/
def unreserved (c : Byte) : Bool :=
  (97 ≤ c && c ≤ 122) || (65 ≤ c && c ≤ 90) || (48 ≤ c && c ≤ 57)
    || c = 45 || c = 95 || c = 46 || c = 126

/-- The function `url.QueryEscape`. -/
def QueryEscape (s : GoString) : GoString :=
  s.flatMap fun c =>
    if c = 32 then [43]
    else if unreserved c then [c]
    else [37, upperHex (c.toNat / 16), upperHex (c.toNat % 16)]

/-- The value of a hexadecimal digit. -/
def unhex (c : Byte) : Option Nat :=
  if 48 ≤ c ∧ c ≤ 57 then some (c.toNat - 48)
  else if 97 ≤ c ∧ c ≤ 102 then some (c.toNat - 97 + 10)
  else if 65 ≤ c ∧ c ≤ 70 then some (c.toNat - 65 + 10)
  else none

/-- The function `url.QueryUnescape`; `none` is its error. -/
def QueryUnescape : GoString → Option GoString
  | [] => some []
  | c :: rest =>
    if c = 37 then
      match rest with
      | h :: l :: rest' =>
        match unhex h, unhex l with
        | some a, some b => (QueryUnescape rest').map fun t => UInt8.ofNat (16 * a + b) :: t
        | _, _ => none
      | _ => none
    else if c = 43 then (QueryUnescape rest).map fun t => 32 :: t
    else (QueryUnescape rest).map fun t => c :: t

/-- The function `strings.Cut` for a separator of one byte, without its
boolean. -/
def Cut (s : GoString) (sep : Byte) : GoString × GoString :=
  match s with
  | [] => ([], [])
  | c :: cs => if c = sep then ([], cs) else ((Cut cs sep).1.cons c, (Cut cs sep).2)

/-- One round of the loop of `url.ParseQuery`, on one piece between `&`. -/
def parseQueryStep (acc : Values × Option GoError) (piece : GoString) : Values × Option GoError :=
  if 59 ∈ piece then (acc.1, some (errorsNew "invalid semicolon separator in query"))
  else if piece = [] then acc
  else
    match QueryUnescape (Cut piece 61).1, QueryUnescape (Cut piece 61).2 with
    | some key, some value => (Values.Add acc.1 key value, acc.2)
    | _, _ => (acc.1, acc.2.orElse fun _ => some (errorsNew "invalid URL escape"))

/-- The function `url.ParseQuery`. -/
def exampleParseQuery (query : GoString) : Values × Option GoError :=
  (Split query 38).foldl parseQueryStep ([], none)

/-- The order of `sort.Strings`: bytewise lexicographic. -/
def bytesLE : GoString → GoString → Bool
  | [], _ => true
  | _ :: _, [] => false
  | a :: as, b :: bs => a < b || (a = b && bytesLE as bs)

/-- The method `url.Values.Encode`: `key=value` pairs, escaped, joined by `&`,
the keys sorted. -/
def exampleEncode (v : Values) : GoString :=
  let keys := (GoMap.keys v).insertionSort fun a b => bytesLE a b = true
  let pairs := keys.flatMap fun k =>
    ((GoMap.get v k).getD []).map fun value => QueryEscape k ++ str "=" ++ QueryEscape value
  List.intercalate (str "&") pairs

/-- The method `(*url.URL).String` on a URL that has a scheme, a host, a path
and a query only, with no byte to escape in host and path. -/
def exampleURLString (u : URL) : GoString :=
  (if u.Scheme ≠ [] then u.Scheme ++ str ":" else [])
    ++ (if u.Scheme ≠ [] ∨ u.Host ≠ [] then
          (if u.Host ≠ [] ∨ u.Path ≠ [] then str "//" else []) ++ u.Host
        else [])
    ++ u.Path
    ++ (if u.ForceQuery ∨ u.RawQuery ≠ [] then str "?" ++ u.RawQuery else [])

/-- The byte of the standard base64 alphabet for a six-bit value. -/
def base64Char (n : Nat) : Byte :=
  if n < 26 then UInt8.ofNat (65 + n)
  else if n < 52 then UInt8.ofNat (97 + (n - 26))
  else if n < 62 then UInt8.ofNat (48 + (n - 52))
  else if n = 62 then 43 else 47

/-- The method `base64.StdEncoding.EncodeToString`. -/
def exampleEncodeToString : GoString → GoString
  | [] => []
  | [a] =>
    [base64Char (a.toNat / 4), base64Char (a.toNat % 4 * 16), 61, 61]
  | [a, b] =>
    [base64Char (a.toNat / 4), base64Char (a.toNat % 4 * 16 + b.toNat / 16),
      base64Char (b.toNat % 16 * 4), 61]
  | a :: b :: c :: rest =>
    base64Char (a.toNat / 4) :: base64Char (a.toNat % 4 * 16 + b.toNat / 16)
      :: base64Char (b.toNat % 16 * 4 + c.toNat / 64) :: base64Char (c.toNat % 64)
      :: exampleEncodeToString rest

/-- The method `ProviderData.setProviderDefaults`: the name is set, a URL and
the scope are set when the configuration left them empty. -/
def exampleSetProviderDefaults (p : ProviderData) (d : providerDefaults) : ProviderData :=
  { p with
    ProviderName := d.name
    LoginURL := p.LoginURL.orElse fun _ => d.loginURL
    RedeemURL := p.RedeemURL.orElse fun _ => d.redeemURL
    ProfileURL := p.ProfileURL.orElse fun _ => d.profileURL
    ValidateURL := p.ValidateURL.orElse fun _ => d.validateURL
    Scope := if p.Scope = [] then d.scope else p.Scope }

/-- The token response of the examples: an access token, an ID token and a
refresh token. -/
def exampleTokenBody : GoString :=
  str "\x7b\"access_token\":\"my_auth_token\",\"id_token\":\"my_id_token\",\"refresh_token\":\"my_refresh_token\"\x7d"

/-- The profile response of the examples: the groups as one comma-separated
string. -/
def exampleGroupBody : GoString := str "\x7b\"group\":\"ops,dev\"\x7d"

/-- The library of the examples. The JWT parser knows two access tokens, one
with the subject `KONTUR\User` and one with the subject `Admin`; the JSON
parser knows the documents `exampleTokenBody` and `exampleGroupBody`; `Quote`
is `strconv.Quote` on printable ASCII without quote or backslash; no file holds
a key or a table. -/
def exampleLib : Lib where
  ToLower := asciiToLower
  URLString := exampleURLString
  ParseQuery := exampleParseQuery
  Encode := exampleEncode
  EncodeToString := exampleEncodeToString
  Quote := fun s => str "\"" ++ s ++ str "\""
  jwtParse := fun tokenString _ =>
    if tokenString = str "jwt.of.domain-user" then
      .ok { Raw := tokenString, Valid := true,
            Claims := [(str "sub", .string (str "KONTUR\\User"))] }
    else if tokenString = str "jwt.of.local-user" then
      .ok { Raw := tokenString, Valid := true, Claims := [(str "sub", .string (str "Admin"))] }
    else .error (errorsNew "token contains an invalid number of segments")
  NewJson := fun body =>
    if body = exampleTokenBody then
      .ok (.object [(str "access_token", .string (str "my_auth_token")),
        (str "id_token", .string (str "my_id_token")),
        (str "refresh_token", .string (str "my_refresh_token"))])
    else if body = exampleGroupBody then
      .ok (.object [(str "group", .string (str "ops,dev"))])
    else .error (errorsNew "invalid character")
  NewRequest := fun method url body =>
    .ok { Method := method, URL := { Opaque := url }, Body := body }
  pemDecode := fun _ => none
  ParsePKIXPublicKey := fun _ => .error (errorsNew "x509: failed to parse public key")
  yamlUnmarshal := fun _ _ => .error (errorsNew "yaml: unmarshal errors")
  setProviderDefaults := exampleSetProviderDefaults
  googleDefaultScope := str "profile email"

/-- A world with no environment variable set and no file, in which every HTTP
request is answered with the given status and body. -/
def exampleWorld (status : Int) (body : GoString) : World where
  Getenv := fun _ => []
  ReadFile := fun name => .error (.new (str "open " ++ name ++ str ": no such file or directory"))
  Do := fun _ => .ok { StatusCode := status, Body := .ok body }

/-! ## Cookie domain -/

/-- The type `middlewareapi.RequestScope`, as far as the cookie-domain
resolver reads it.
Modelled from the spec: the declaration is in `pkg/apis/middleware`, outside
the files at hand; the spec's request-scope contract exposes whether the hop is
behind a trusted reverse proxy. -/
structure RequestScope where
  ReverseProxy : Bool := false
  deriving DecidableEq, Repr

/-- The method `http.Header.Get`: the first value under the name, or the empty
string. -/
def headerGet (h : Values) (key : GoString) : GoString :=
  ((GoMap.get h key).getD []).headD []

/-- The function `strings.HasSuffix`. -/
def HasSuffix (s suffix : GoString) : Bool := suffix.isSuffixOf s

/-- Modelled from the spec: the effective host of the cookie-domain resolver
(`pkg/cookies` has only its test among the files at hand): the
`X-Forwarded-Host` header value if the request is flagged as arriving through
a reverse-proxy hop, else the request's own Host. A request with no scope
attached is not flagged. -/
def effectiveHost (req : Request) (scope : Option RequestScope) : GoString :=
  match scope with
  | some sc => if sc.ReverseProxy then headerGet req.Header (str "X-Forwarded-Host") else req.Host
  | none => req.Host

/-- Modelled from the spec: when a configured domain matches the effective
host (`pkg/cookies/cookies.go` is not among the files at hand): it equals the
host exactly, or it begins with the separator `.` and the host ends with it. -/
def domainMatches (host domain : GoString) : Bool :=
  domain = host || (domain.head? = some 46 && HasSuffix host domain)

/-- Modelled from the spec: the pure function `Resolve(effectiveHost,
configuredDomains)` of the cookie-domain resolver (`pkg/cookies/cookies.go` is
not among the files at hand): iterates the domains in configured order and
returns the first one that matches, verbatim, or the empty string if none
does. -/
def Resolve (host : GoString) : List GoString → GoString
  | [] => []
  | domain :: rest => if domainMatches host domain then domain else Resolve host rest

/-- Modelled from the spec: the function `GetCookieDomain(req, cookieDomains)`
that the test calls (`pkg/cookies/cookies.go` is not among the files at hand):
`Resolve` on the effective host of the request. The scope is the one attached
to the request, if any. -/
def GetCookieDomain (req : Request) (scope : Option RequestScope)
    (cookieDomains : List GoString) : GoString :=
  Resolve (effectiveHost req scope) cookieDomains

/-! ## Metrics -/

/-- The StatsD client behind `OAuthProxy.StatsD`, as the proxy uses it: the
sink records the counter names passed to `Increment`, in call order. -/
structure StatsDClient where
  incremented : List GoString := []
  deriving DecidableEq, Repr

/-- The method `Increment` of the StatsD client. -/
def StatsDClient.Increment (c : StatsDClient) (name : GoString) : StatsDClient :=
  { incremented := c.incremented ++ [name] }

/-- The type `OAuthProxy`, as far as `metrics.go` uses it: the sink, nil when
no StatsD is configured. -/
structure OAuthProxy where
  StatsD : Option StatsDClient := none
  deriving DecidableEq, Repr

/-- The function `strings.Replace(s, old, new, -1)` for `old` and `new` of one
byte each. -/
def Replace (s : GoString) (old new : Byte) : GoString :=
  match s with
  | [] => []
  | c :: cs => (if c = old then new else c) :: Replace cs old new

/-- The method `OAuthProxy.incrementBasicSuccess`: the proxy after the call. -/
def incrementBasicSuccess (p : OAuthProxy) (entryAlias method : GoString) : OAuthProxy :=
  match p.StatsD with
  | some statsD =>
    let entryAlias := Replace entryAlias 46 45
    let entryMetricName := str "basicAuth.authenticated." ++ entryAlias ++ str "." ++ method
    let totalMetricName := str "basicAuth.authenticated.total"
    let statsD := statsD.Increment entryMetricName
    let statsD := statsD.Increment totalMetricName
    { p with StatsD := some statsD }
  | none => p

/-- The method `OAuthProxy.incrementBasicFailed`: the proxy after the call. -/
def incrementBasicFailed (p : OAuthProxy) (method : GoString) : OAuthProxy :=
  match p.StatsD with
  | some statsD =>
    let entryMetricName := str "basicAuth.unauthenticated.attemptedWith." ++ method
    let totalMetricName := str "basicAuth.unauthenticated.total"
    let statsD := statsD.Increment entryMetricName
    let statsD := statsD.Increment totalMetricName
    { p with StatsD := some statsD }
  | none => p

/-- The method `OAuthProxy.incrementAuthorizeFailed`: the proxy after the
call. -/
def incrementAuthorizeFailed (p : OAuthProxy) (method : GoString) : OAuthProxy :=
  match p.StatsD with
  | some statsD =>
    let entryMetricName := str "basicAuth.unauthorized.attemptedWith." ++ method
    let totalMetricName := str "basicAuth.unauthorized.total"
    let statsD := statsD.Increment entryMetricName
    let statsD := statsD.Increment totalMetricName
    { p with StatsD := some statsD }
  | none => p

/-- The method `OAuthProxy.incrementCallbackFailed`: the proxy after the
call. -/
def incrementCallbackFailed (p : OAuthProxy) (method : GoString) : OAuthProxy :=
  match p.StatsD with
  | some statsD =>
    let entryMetricName := str "basicAuth.callbackfail.attemptedWith." ++ method
    let totalMetricName := str "basicAuth.callbackfail.total"
    let statsD := statsD.Increment entryMetricName
    let statsD := statsD.Increment totalMetricName
    { p with StatsD := some statsD }
  | none => p

/-! ## A library and a world that hold a public key -/

/-- The text of the key file of the examples (the PEM armour is all the
examples read of it). -/
def examplePem : GoString :=
  str "-----BEGIN PUBLIC KEY-----\nMIIB\n-----END PUBLIC KEY-----\n"

/-- The library of the examples, with a PEM decoder and a key parser that know
the key file `examplePem`. -/
def exampleKeyLib : Lib :=
  { exampleLib with
    pemDecode := fun b => if b = examplePem then some (str "MIIB") else none
    ParsePKIXPublicKey := fun der =>
      if der = str "MIIB" then .ok (.rsa { N := 3233, E := 17 })
      else .error (errorsNew "x509: failed to parse public key") }

/-- A world in which `PASSPORT_KEY` names the key file of the examples, no
other environment variable is set and no other file exists. -/
def exampleKeyWorld : World where
  Getenv := fun name =>
    if name = str "PASSPORT_KEY" then str "testdata/passport/passport.pub" else []
  ReadFile := fun name =>
    if name = str "testdata/passport/passport.pub" then .ok examplePem
    else .error (.new (str "open " ++ name ++ str ": no such file or directory"))
  Do := fun _ => .error (errorsNew "dial tcp: connection refused")
/-! ## Lemmas on maps -/

theorem GoMap.get_eq_none_iff {κ ν : Type} [DecidableEq κ] (m : GoMap κ ν) (k : κ) :
    GoMap.get m k = none ↔ k ∉ GoMap.keys m := by
  induction m with
  | nil => simp [GoMap.get, GoMap.keys]
  | cons e rest ih =>
    obtain ⟨k', v⟩ := e
    by_cases hk : k' = k
    · simp [GoMap.get, GoMap.keys, hk]
    · have hk2 : ¬ k = k' := fun h => hk h.symm
      simpa [GoMap.get, GoMap.keys, hk, hk2] using ih

theorem GoMap.get_of_mem {κ ν : Type} [DecidableEq κ] (m : GoMap κ ν) (hwf : GoMap.WF m)
    (k : κ) (v : ν) (hmem : (k, v) ∈ m) : GoMap.get m k = some v := by
  induction m with
  | nil => simp at hmem
  | cons e rest ih =>
    obtain ⟨k', v'⟩ := e
    have hnd : k' ∉ GoMap.keys rest ∧ GoMap.WF rest := by
      simpa [GoMap.WF, GoMap.keys] using hwf
    rcases List.mem_cons.mp hmem with heq | hrest
    · cases heq
      simp [GoMap.get]
    · have hne : ¬ k' = k := by
        intro h
        apply hnd.1
        rw [h]
        exact List.mem_map_of_mem Prod.fst hrest
      simp [GoMap.get, hne, ih hnd.2 hrest]

theorem GoMap.mem_of_get {κ ν : Type} [DecidableEq κ] (m : GoMap κ ν)
    (k : κ) (v : ν) (hget : GoMap.get m k = some v) : (k, v) ∈ m := by
  induction m with
  | nil => simp [GoMap.get] at hget
  | cons e rest ih =>
    obtain ⟨k', v'⟩ := e
    by_cases hk : k' = k
    · simp [GoMap.get, hk] at hget
      simp [hk, hget]
    · simp [GoMap.get, hk] at hget
      exact List.mem_cons_of_mem _ (ih hget)

theorem GoMap.get_set {κ ν : Type} [DecidableEq κ] (m : GoMap κ ν) (k k' : κ) (v : ν) :
    GoMap.get (GoMap.set m k v) k' = if k = k' then some v else GoMap.get m k' := by
  induction m with
  | nil => simp [GoMap.get, GoMap.set]
  | cons e rest ih =>
    obtain ⟨k₀, v₀⟩ := e
    by_cases h0 : k₀ = k
    · subst h0
      by_cases h1 : k₀ = k' <;> simp [GoMap.get, GoMap.set, h1]
    · by_cases h1 : k₀ = k'
      · subst h1
        have h2 : ¬ k = k₀ := fun h => h0 h.symm
        simp [GoMap.get, GoMap.set, h0, h2]
      · simp [GoMap.get, GoMap.set, h0, h1, ih]

theorem GoMap.keys_set {κ ν : Type} [DecidableEq κ] (m : GoMap κ ν) (k : κ) (v : ν) :
    GoMap.keys (GoMap.set m k v) = if k ∈ GoMap.keys m then GoMap.keys m else GoMap.keys m ++ [k] := by
  induction m with
  | nil => simp [GoMap.keys, GoMap.set]
  | cons e rest ih =>
    obtain ⟨k₀, v₀⟩ := e
    by_cases h0 : k₀ = k
    · subst h0
      simp [GoMap.keys, GoMap.set]
    · have h2 : ¬ k = k₀ := fun h => h0 h.symm
      simp only [GoMap.keys] at ih
      by_cases hm : k ∈ List.map Prod.fst rest
      · simp [GoMap.keys, GoMap.set, h0, h2, hm, ih]
      · simp [GoMap.keys, GoMap.set, h0, h2, hm, ih]

theorem GoMap.WF_set {κ ν : Type} [DecidableEq κ] (m : GoMap κ ν) (k : κ) (v : ν)
    (hwf : GoMap.WF m) : GoMap.WF (GoMap.set m k v) := by
  unfold GoMap.WF at *
  rw [GoMap.keys_set]
  by_cases hm : k ∈ GoMap.keys m
  · simpa [hm] using hwf
  · simp only [hm, if_false]
    exact List.Nodup.append hwf (List.nodup_singleton k) (by simpa using hm)

/-- The set built by the second loop of `getAllowedGroups`. -/
theorem get_foldl_set_true (groups : List GoString) (init : GoMap GoString Bool) (g : GoString) :
    GoMap.get (groups.foldl (fun res group => GoMap.set res group true) init) g
      = if g ∈ groups then some true else GoMap.get init g := by
  induction groups generalizing init with
  | nil => simp
  | cons x xs ih =>
    rw [List.foldl_cons, ih, GoMap.get_set]
    by_cases h1 : g ∈ xs
    · simp [h1]
    · by_cases h2 : x = g
      · simp [h2]
      · have h3 : ¬ g = x := fun h => h2 h.symm
        simp [h1, h2, h3]

/-! ## Lemmas on the longest-prefix loop -/

theorem HasPrefix_iff (s pre : GoString) : HasPrefix s pre = true ↔ pre <+: s := by
  simp [HasPrefix]

theorem bestMatchLoop_spec (uri : GoString) (keys : List GoString) (b : GoString) :
    (bestMatchLoop uri keys b = b ∨
        (bestMatchLoop uri keys b ∈ keys ∧ bestMatchLoop uri keys b <+: uri))
    ∧ b.length ≤ (bestMatchLoop uri keys b).length
    ∧ ∀ k ∈ keys, k <+: uri → k.length ≤ (bestMatchLoop uri keys b).length := by
  induction keys generalizing b with
  | nil => simp [bestMatchLoop]
  | cons key rest ih =>
    have hstep : bestMatchLoop uri (key :: rest) b
        = bestMatchLoop uri rest
            (if HasPrefix uri key then (if b.length < key.length then key else b) else b) := by
      simp [bestMatchLoop]
    rw [hstep]
    by_cases hp : HasPrefix uri key = true
    · have hpre : key <+: uri := (HasPrefix_iff uri key).mp hp
      by_cases hl : b.length < key.length
      · simp only [hp, hl, if_true]
        obtain ⟨h1, h2, h3⟩ := ih key
        refine ⟨?_, by omega, ?_⟩
        · rcases h1 with h | ⟨h, h'⟩
          · right
            rw [h]
            exact ⟨List.mem_cons_self _ _, hpre⟩
          · right
            exact ⟨List.mem_cons_of_mem _ h, h'⟩
        · intro k hk hkp
          rcases List.mem_cons.mp hk with rfl | hk'
          · exact h2
          · exact h3 k hk' hkp
      · simp only [hp, hl, if_true, if_false]
        obtain ⟨h1, h2, h3⟩ := ih b
        refine ⟨?_, h2, ?_⟩
        · rcases h1 with h | ⟨h, h'⟩
          · left; exact h
          · right; exact ⟨List.mem_cons_of_mem _ h, h'⟩
        · intro k hk hkp
          rcases List.mem_cons.mp hk with rfl | hk'
          · omega
          · exact h3 k hk' hkp
    · have hnp : ¬ key <+: uri := fun h => hp ((HasPrefix_iff uri key).mpr h)
      simp only [hp]
      obtain ⟨h1, h2, h3⟩ := ih b
      refine ⟨?_, h2, ?_⟩
      · rcases h1 with h | ⟨h, h'⟩
        · left; exact h
        · right; exact ⟨List.mem_cons_of_mem _ h, h'⟩
      · intro k hk hkp
        rcases List.mem_cons.mp hk with rfl | hk'
        · exact absurd hkp hnp
        · exact h3 k hk' hkp

/-- Two prefixes of one string that are both of maximal length are equal. -/
theorem prefix_eq_of_length_le (uri a b : GoString) (ha : a <+: uri) (hb : b <+: uri)
    (hab : a.length ≤ b.length) (hba : b.length ≤ a.length) : a = b :=
  List.IsPrefix.eq_of_length (List.prefix_of_prefix_length_le ha hb hab) (by omega)

/-- The first loop of `getAllowedGroups` ends on the longest key that is a
prefix of `uri`, whenever the table has one. -/
theorem bestMatchLoop_eq_longest (uri : GoString) (keys : List GoString) (key : GoString)
    (hmem : key ∈ keys) (hpre : key <+: uri)
    (hmax : ∀ k ∈ keys, k <+: uri → k.length ≤ key.length) :
    bestMatchLoop uri keys [] = key := by
  obtain ⟨h1, _, h3⟩ := bestMatchLoop_spec uri keys []
  have hlen := h3 key hmem hpre
  rcases h1 with h | ⟨h, h'⟩
  · rw [h] at hlen ⊢
    have : key.length = 0 := by simpa using hlen
    exact (List.length_eq_zero.mp this).symm
  · exact prefix_eq_of_length_le uri _ _ h' hpre (hmax _ h h') hlen

/-- The first loop of `getAllowedGroups` ends on the empty string when no key
is a prefix of `uri`. -/
theorem bestMatchLoop_eq_nil (uri : GoString) (keys : List GoString)
    (hno : ∀ k ∈ keys, ¬ k <+: uri) : bestMatchLoop uri keys [] = [] := by
  obtain ⟨h1, _, _⟩ := bestMatchLoop_spec uri keys []
  rcases h1 with h | ⟨h, h'⟩
  · exact h
  · exact absurd h' (hno _ h)


/-! ## The authorization table -/

theorem getAllowedGroups_of_longest (p : PassportProvider) (uri key : GoString)
    (groups : List GoString) (hwf : GoMap.WF p.auth) (hmem : (key, groups) ∈ p.auth)
    (hpre : key <+: uri)
    (hmax : ∀ k ∈ GoMap.keys p.auth, k <+: uri → k.length ≤ key.length) :
    getAllowedGroups p uri = groups.foldl (fun res group => GoMap.set res group true) [] := by
  have hk : key ∈ GoMap.keys p.auth := List.mem_map_of_mem Prod.fst hmem
  simp only [getAllowedGroups, bestMatchLoop_eq_longest uri _ key hk hpre hmax,
    GoMap.get_of_mem p.auth hwf key groups hmem]

theorem getAllowedGroups_no_match (p : PassportProvider) (uri : GoString)
    (hno : ∀ k ∈ GoMap.keys p.auth, ¬ k <+: uri) : getAllowedGroups p uri = [] := by
  have hnil : ([] : GoString) ∉ GoMap.keys p.auth := fun h => hno [] h List.nil_prefix
  simp only [getAllowedGroups, bestMatchLoop_eq_nil uri _ hno,
    (GoMap.get_eq_none_iff p.auth []).mpr hnil]

theorem exists_longest_key (auth : PassportAuthConfiguration) (uri : GoString)
    (hex : ∃ k ∈ GoMap.keys auth, k <+: uri) :
    ∃ key groups, (key, groups) ∈ auth ∧ key <+: uri ∧
      ∀ k ∈ GoMap.keys auth, k <+: uri → k.length ≤ key.length := by
  obtain ⟨k, hk, hkp⟩ := hex
  obtain ⟨h1, _, h3⟩ := bestMatchLoop_spec uri (GoMap.keys auth) []
  have hin : bestMatchLoop uri (GoMap.keys auth) [] ∈ GoMap.keys auth
      ∧ bestMatchLoop uri (GoMap.keys auth) [] <+: uri := by
    rcases h1 with h | h
    · have hlen := h3 k hk hkp
      rw [h] at hlen ⊢
      have h0 : k.length = 0 := by simpa using hlen
      have hk0 : k = [] := List.length_eq_zero.mp h0
      exact ⟨hk0 ▸ hk, List.nil_prefix⟩
    · exact h
  obtain ⟨⟨key, groups⟩, hmem, hfst⟩ := List.mem_map.mp hin.1
  simp only at hfst
  refine ⟨key, groups, hmem, ?_, ?_⟩
  · rw [hfst]; exact hin.2
  · rw [hfst]; exact h3

/-- C1. For every authorization table (a map: no key bound twice) and every
URI, `getAllowedGroups` returns exactly the set of the groups listed under the
longest key of the table that is a prefix of the URI: a group is bound (to
`true`) in the result iff it is listed under that key. That key exists as soon
as some key is a prefix of the URI and it is unique, so the result is the same
for every iteration order of the table; when no key is a prefix of the URI the
result is the empty set. -/
theorem getAllowedGroups_longest_match (p : PassportProvider) (uri : GoString)
    (hwf : GoMap.WF p.auth) :
    (∀ key groups, (key, groups) ∈ p.auth → key <+: uri →
        (∀ k ∈ GoMap.keys p.auth, k <+: uri → k.length ≤ key.length) →
        ∀ g, GoMap.get (getAllowedGroups p uri) g = if g ∈ groups then some true else none)
    ∧ ((∃ k ∈ GoMap.keys p.auth, k <+: uri) →
        ∃ key groups, (key, groups) ∈ p.auth ∧ key <+: uri ∧
          ∀ k ∈ GoMap.keys p.auth, k <+: uri → k.length ≤ key.length)
    ∧ (∀ k₁ ∈ GoMap.keys p.auth, ∀ k₂ ∈ GoMap.keys p.auth, k₁ <+: uri → k₂ <+: uri →
        (∀ k ∈ GoMap.keys p.auth, k <+: uri → k.length ≤ k₁.length) →
        (∀ k ∈ GoMap.keys p.auth, k <+: uri → k.length ≤ k₂.length) → k₁ = k₂)
    ∧ (∀ auth : PassportAuthConfiguration, auth.Perm p.auth →
        getAllowedGroups { p with auth := auth } uri = getAllowedGroups p uri)
    ∧ ((∀ k ∈ GoMap.keys p.auth, ¬ k <+: uri) → getAllowedGroups p uri = []) := by
  refine ⟨?_, exists_longest_key p.auth uri, ?_, ?_, getAllowedGroups_no_match p uri⟩
  · intro key groups hmem hpre hmax g
    rw [getAllowedGroups_of_longest p uri key groups hwf hmem hpre hmax, get_foldl_set_true]
    simp [GoMap.get]
  · intro k₁ h₁ k₂ h₂ hp₁ hp₂ hm₁ hm₂
    exact prefix_eq_of_length_le uri k₁ k₂ hp₁ hp₂ (hm₂ k₁ h₁ hp₁) (hm₁ k₂ h₂ hp₂)
  · intro auth hperm
    have hkeys : (GoMap.keys auth).Perm (GoMap.keys p.auth) := hperm.map Prod.fst
    have hwf2 : GoMap.WF auth := (List.Perm.nodup_iff hkeys).mpr hwf
    by_cases hex : ∃ k ∈ GoMap.keys p.auth, k <+: uri
    · obtain ⟨key, groups, hmem, hpre, hmax⟩ := exists_longest_key p.auth uri hex
      rw [getAllowedGroups_of_longest p uri key groups hwf hmem hpre hmax]
      exact getAllowedGroups_of_longest { p with auth := auth } uri key groups hwf2
        (hperm.mem_iff.mpr hmem) hpre (fun k hk => hmax k (hkeys.mem_iff.mp hk))
    · have hno : ∀ k ∈ GoMap.keys p.auth, ¬ k <+: uri := fun k hk hkp => hex ⟨k, hk, hkp⟩
      rw [getAllowedGroups_no_match p uri hno]
      exact getAllowedGroups_no_match { p with auth := auth } uri
        (fun k hk => hno k (hkeys.mem_iff.mp hk))

/-- Witness for C1: a table with the keys `test.com` and `test.com/admin`; under
`test.com/admin/x` the longer key decides. -/
theorem getAllowedGroups_longest_match_witness :
    GoMap.WF [(str "test.com", [str "*"]), (str "test.com/admin", [str "ops"])]
    ∧ ∀ g, GoMap.get
        (getAllowedGroups
          { auth := [(str "test.com", [str "*"]), (str "test.com/admin", [str "ops"])] }
          (str "test.com/admin/x")) g
        = if g ∈ [str "ops"] then some true else none :=
  ⟨by decide,
   (getAllowedGroups_longest_match
      { auth := [(str "test.com", [str "*"]), (str "test.com/admin", [str "ops"])] }
      (str "test.com/admin/x") (by decide)).1
      (str "test.com/admin") [str "ops"] (by decide) (by decide) (by decide)⟩


/-! ## Request validation -/

/-- Every group bound in the result of `getAllowedGroups` is bound to `true`. -/
theorem getAllowedGroups_values (p : PassportProvider) (uri g : GoString) (b : Bool)
    (h : GoMap.get (getAllowedGroups p uri) g = some b) : b = true := by
  unfold getAllowedGroups at h
  simp only at h
  split at h
  · rw [get_foldl_set_true] at h
    by_cases hg : g ∈ (by assumption : List GoString)
    · simp only [hg, if_true, Option.some.injEq] at h
      exact h.symm
    · simp [hg, GoMap.get] at h
  · simp [GoMap.get] at h

theorem anyGroupAllowed_iff (allowed : GoMap GoString Bool) (G : List GoString) :
    anyGroupAllowed allowed G = true ↔ ∃ g ∈ G, GoMap.get allowed g = some true := by
  induction G with
  | nil => simp [anyGroupAllowed]
  | cons x xs ih =>
    unfold anyGroupAllowed
    split
    · next h => simp [h]
    · next h =>
      rw [ih]
      constructor
      · rintro ⟨g, hg, hget⟩
        exact ⟨g, List.mem_cons_of_mem _ hg, hget⟩
      · rintro ⟨g, hg, hget⟩
        rcases List.mem_cons.mp hg with rfl | hg'
        · exact absurd hget (h)
        · exact ⟨g, hg', hget⟩

/-- Membership in the allowed set, as the loop of `ValidateRequest` tests it
(`ex && val`), is the presence of the key. -/
theorem anyGroupAllowed_iff_bound (p : PassportProvider) (uri : GoString) (G : List GoString) :
    anyGroupAllowed (getAllowedGroups p uri) G = true
      ↔ ∃ g ∈ G, GoMap.get (getAllowedGroups p uri) g ≠ none := by
  rw [anyGroupAllowed_iff]
  constructor
  · rintro ⟨g, hg, hget⟩
    exact ⟨g, hg, by simp [hget]⟩
  · rintro ⟨g, hg, hget⟩
    refine ⟨g, hg, ?_⟩
    cases hb : GoMap.get (getAllowedGroups p uri) g with
    | none => exact absurd hb hget
    | some b => rw [getAllowedGroups_values p uri g b hb]

/-- C2. For every request and every non-nil session, whatever its Email and
whatever the group cache holds, if the group set resolved for the request's
host-without-port followed by its path contains `*`, `ValidateRequest` returns
`(true, nil)`. With the table `{"test.com": ["*"]}` every request whose host is
`test.com` (with or without a port) is allowed, whatever its path. -/
theorem ValidateRequest_star_allows (p : PassportProvider) (req : Request) (s : SessionState) :
    (GoMap.get (getAllowedGroups p (requestURI req)) (str "*") ≠ none →
        ValidateRequest p req (some s) = (true, none))
    ∧ (p.auth = [(str "test.com", [str "*"])] →
        (Split req.Host 58).headD [] = str "test.com" →
        ValidateRequest p req (some s) = (true, none)) := by
  have hmain : GoMap.get (getAllowedGroups p (requestURI req)) (str "*") ≠ none →
      ValidateRequest p req (some s) = (true, none) := by
    intro h
    unfold ValidateRequest
    simp only
    split
    · rfl
    · next hnone => exact absurd hnone h
  refine ⟨hmain, ?_⟩
  intro hauth hhost
  apply hmain
  have huri : requestURI req = str "test.com" ++ req.URL.Path := by
    unfold requestURI
    rw [hhost]
  have hres := getAllowedGroups_of_longest p (requestURI req) (str "test.com") [str "*"]
    (by rw [hauth]; decide) (by rw [hauth]; simp)
    (by rw [huri]; exact List.prefix_append _ _)
    (by
      intro k hk _
      rw [hauth] at hk
      simp [GoMap.keys] at hk
      rw [hk])
  rw [hres]
  decide

/-- Witness for C2: a session with an empty Email and an empty group cache,
host `test.com:8080`. -/
theorem ValidateRequest_star_allows_witness :
    ValidateRequest { auth := [(str "test.com", [str "*"])] }
      { Host := str "test.com:8080", URL := { Path := str "/any/path" } } (some {})
      = (true, none) :=
  (ValidateRequest_star_allows { auth := [(str "test.com", [str "*"])] }
    { Host := str "test.com:8080", URL := { Path := str "/any/path" } } {}).1 (by decide)

/-- C3. For every request and non-nil session whose Email has a cached group
list `G`, when the resolved allowed-group set does not contain `*`:
`ValidateRequest` returns `(true, nil)` if at least one element of `G` is in
the resolved set and `(false, nil)` otherwise (so it returns `(true, nil)` iff
some element of `G` is in the set). And a request whose URI matches no prefix
of the table is never allowed, whatever the session. -/
theorem ValidateRequest_known_user (p : PassportProvider) (req : Request) (s : SessionState)
    (G : List GoString) (hG : GoMap.get p.userGroups s.Email = some G)
    (hstar : GoMap.get (getAllowedGroups p (requestURI req)) (str "*") = none) :
    ((∃ g ∈ G, GoMap.get (getAllowedGroups p (requestURI req)) g ≠ none) →
        ValidateRequest p req (some s) = (true, none))
    ∧ ((¬ ∃ g ∈ G, GoMap.get (getAllowedGroups p (requestURI req)) g ≠ none) →
        ValidateRequest p req (some s) = (false, none))
    ∧ (ValidateRequest p req (some s) = (true, none) ↔
        ∃ g ∈ G, GoMap.get (getAllowedGroups p (requestURI req)) g ≠ none)
    ∧ ((∀ k ∈ GoMap.keys p.auth, ¬ k <+: requestURI req) →
        ∀ s' : Option SessionState, (ValidateRequest p req s').1 = false) := by
  have hval : ValidateRequest p req (some s)
      = if anyGroupAllowed (getAllowedGroups p (requestURI req)) G then (true, none)
        else (false, none) := by
    simp only [ValidateRequest, hstar, hG]
  have hiff := anyGroupAllowed_iff_bound p (requestURI req) G
  refine ⟨?_, ?_, ?_, ?_⟩
  · intro h
    rw [hval, hiff.mpr h]
    rfl
  · intro h
    rw [hval]
    have : anyGroupAllowed (getAllowedGroups p (requestURI req)) G = false := by
      cases hb : anyGroupAllowed (getAllowedGroups p (requestURI req)) G with
      | false => rfl
      | true => exact absurd (hiff.mp hb) h
    rw [this]
    rfl
  · rw [hval, ← hiff]
    cases anyGroupAllowed (getAllowedGroups p (requestURI req)) G <;> simp
  · intro hno s'
    have hempty := getAllowedGroups_no_match p (requestURI req) hno
    cases s' with
    | none => rfl
    | some s₁ =>
      simp only [ValidateRequest, hempty, GoMap.get]
      cases GoMap.get p.userGroups s₁.Email with
      | none => rfl
      | some groups =>
        have : anyGroupAllowed [] groups = false := by
          induction groups with
          | nil => rfl
          | cons x xs ih => simp [anyGroupAllowed, GoMap.get, ih]
        simp [this]

/-- Witness for C3: the cached groups `ops, dev` of `u@d` meet the set `dev`
resolved for `test.com/x`. -/
theorem ValidateRequest_known_user_witness :
    ValidateRequest
      { auth := [(str "test.com", [str "dev"])],
        userGroups := [(str "u@d", [str "ops", str "dev"])] }
      { Host := str "test.com", URL := { Path := str "/x" } }
      (some { Email := str "u@d" }) = (true, none) :=
  (ValidateRequest_known_user
    { auth := [(str "test.com", [str "dev"])],
      userGroups := [(str "u@d", [str "ops", str "dev"])] }
    { Host := str "test.com", URL := { Path := str "/x" } }
    { Email := str "u@d" } [str "ops", str "dev"] (by decide) (by decide)).1
    ⟨str "dev", by decide, by decide⟩

/-- C4. For every request and non-nil session whose Email has no entry in the
group cache, when the resolved allowed-group set does not contain `*`,
`ValidateRequest` returns `false` with the non-nil error "session need to be
re-established", never the plain denial `(false, nil)`. -/
theorem ValidateRequest_unknown_user (p : PassportProvider) (req : Request) (s : SessionState)
    (hmiss : GoMap.get p.userGroups s.Email = none)
    (hstar : GoMap.get (getAllowedGroups p (requestURI req)) (str "*") = none) :
    ValidateRequest p req (some s)
        = (false, some (GoError.new (str "session need to be re-established")))
    ∧ ValidateRequest p req (some s) ≠ (false, none) := by
  have h : ValidateRequest p req (some s)
      = (false, some (GoError.new (str "session need to be re-established"))) := by
    simp only [ValidateRequest, hstar, hmiss, errorsNew]
  refine ⟨h, ?_⟩
  rw [h]
  simp

/-- Witness for C4: an empty group cache. -/
theorem ValidateRequest_unknown_user_witness :
    ValidateRequest { auth := [(str "test.com", [str "dev"])] }
      { Host := str "test.com", URL := { Path := str "/x" } } (some { Email := str "u@d" })
      = (false, some (GoError.new (str "session need to be re-established"))) :=
  (ValidateRequest_unknown_user { auth := [(str "test.com", [str "dev"])] }
    { Host := str "test.com", URL := { Path := str "/x" } } { Email := str "u@d" }
    (by decide) (by decide)).1

/-! ## Claim extraction -/

theorem Split_ne_nil (s : GoString) (sep : Byte) : Split s sep ≠ [] := by
  induction s with
  | nil => simp [Split]
  | cons c cs ih =>
    unfold Split
    by_cases h : c = sep
    · simp [h]
    · simp only [h, if_false]
      split <;> simp

/-- A string without the separator is the only piece of its split. -/
theorem Split_of_not_mem (s : GoString) (sep : Byte) (h : sep ∉ s) : Split s sep = [s] := by
  induction s with
  | nil => simp [Split]
  | cons c cs ih =>
    have hc : ¬ c = sep := fun e => h (by simp [e])
    have hcs : sep ∉ cs := fun e => h (List.mem_cons_of_mem _ e)
    unfold Split
    simp [hc, ih hcs]

/-- Splitting `d ++ sep :: u`, with no separator in `d`, gives `d` and then
the pieces of `u`. -/
theorem Split_append_sep (d u : GoString) (sep : Byte) (h : sep ∉ d) :
    Split (d ++ sep :: u) sep = d :: Split u sep := by
  induction d with
  | nil =>
    show Split (sep :: u) sep = [] :: Split u sep
    rw [Split]
    simp
  | cons c cs ih =>
    have hc : ¬ c = sep := fun e => h (by simp [e])
    have hcs : sep ∉ cs := fun e => h (List.mem_cons_of_mem _ e)
    show Split (c :: (cs ++ sep :: u)) sep = (c :: cs) :: Split u sep
    rw [Split]
    simp [hc, ih hcs]

/-- With its redeem URL set, `apiRequest` returns, and with a nil error it
returns a document. -/
theorem apiRequest_returns (lib : Lib) (w : World) (p : PassportProvider) (req : Request)
    (redeemURL : URL) (hredeem : p.ProviderData.RedeemURL = some redeemURL) :
    ∃ r, apiRequest lib w p req = .returned r ∧ (r.2 = none → r.1 ≠ none) := by
  cases hdo : w.Do req with
  | error err => exact ⟨(none, some err), by simp [apiRequest, hdo], by simp⟩
  | ok resp =>
    cases hbody : resp.Body with
    | error err => exact ⟨(none, some err), by simp [apiRequest, hdo, hbody], by simp⟩
    | ok body =>
      by_cases hst : resp.StatusCode = 200
      · cases hj : lib.NewJson body with
        | error err =>
          exact ⟨(none, some err), by simp [apiRequest, hdo, hbody, hst, hj], by simp⟩
        | ok data =>
          exact ⟨(some data, none), by simp [apiRequest, hdo, hbody, hst, hj], by simp⟩
      · exact ⟨(none, some (.new (str "got " ++ formatInt resp.StatusCode ++ str " from "
            ++ lib.Quote (lib.URLString redeemURL) ++ str " " ++ body))),
          by simp [apiRequest, hdo, hbody, hst, hredeem], by simp⟩

/-- With its profile and redeem URLs set and a profile request that
`http.NewRequest` accepts, `getUserGroups` returns. -/
theorem getUserGroups_returns (lib : Lib) (w : World) (p : PassportProvider) (token : GoString)
    (profileURL redeemURL : URL) (req : Request)
    (hprofile : p.ProviderData.ProfileURL = some profileURL)
    (hredeem : p.ProviderData.RedeemURL = some redeemURL)
    (hreq : lib.NewRequest (str "GET") (lib.URLString profileURL)
      (lib.Encode (Values.Add (Values.Add [] (str "client_id") p.ProviderData.ClientID)
        (str "client_secret") p.ProviderData.ClientSecret)) = .ok req) :
    ∃ r, getUserGroups lib w p token = .returned r := by
  unfold getUserGroups
  simp only [hprofile, hreq]
  obtain ⟨⟨j, e⟩, hr, hdoc⟩ := apiRequest_returns lib w p
    { req with
      Header := Values.Set
        (Values.Set req.Header (str "Accept") (str "application/json"))
        (str "Authorization") (str "Bearer " ++ token) } redeemURL hredeem
  rw [hr]
  cases e with
  | some err => cases j <;> exact ⟨([], some err), rfl⟩
  | none =>
    cases j with
    | none => exact absurd rfl (hdoc rfl)
    | some json =>
      simp only [Outcome.bind]
      cases hs : (json.Get (str "group")).String with
      | mk groups e2 =>
        cases e2 with
        | none => exact ⟨(Split groups 44, none), rfl⟩
        | some _ => exact ⟨(json.Get (str "group")).StringArray, rfl⟩

/-- C5. For every session whose access token verifies (`jwt.Parse` returns a
valid token and a nil error) and carries a string `sub` claim: if the
lower-cased subject is `d\u` (no backslash in `d` or in `u`), `GetEmailAddress`
returns `u@d` with a nil error, for a provider whose profile and redeem URLs
are set (as `NewPassportProvider` leaves them) and whose group-lookup request
`http.NewRequest` accepts; if the lower-cased subject contains no backslash
(as it does when the subject contains none and lower-casing adds none),
`GetEmailAddress` returns the lower-cased subject followed by `@local` with a
nil error, and the group cache then maps that email to exactly `["local"]`. -/
theorem GetEmailAddress_subject (lib : Lib) (w : World) (p : PassportProvider)
    (s : SessionState) (token : Token) (sub : GoString)
    (hparse : lib.jwtParse s.AccessToken p.publicKey = .ok token)
    (hvalid : token.Valid = true)
    (hsub : GoMap.get token.Claims (str "sub") = some (.string sub)) :
    (∀ d u profileURL redeemURL req, lib.ToLower sub = d ++ 92 :: u → 92 ∉ d → 92 ∉ u →
        p.ProviderData.ProfileURL = some profileURL →
        p.ProviderData.RedeemURL = some redeemURL →
        lib.NewRequest (str "GET") (lib.URLString profileURL)
          (lib.Encode (Values.Add (Values.Add [] (str "client_id") p.ProviderData.ClientID)
            (str "client_secret") p.ProviderData.ClientSecret)) = .ok req →
        ∃ p', GetEmailAddress lib w p (some s) = .returned (p', u ++ str "@" ++ d, none))
    ∧ (92 ∉ lib.ToLower sub →
        ∃ p', GetEmailAddress lib w p (some s)
            = .returned (p', lib.ToLower sub ++ str "@local", none)
          ∧ GoMap.get p'.userGroups (lib.ToLower sub ++ str "@local") = some [str "local"])
    ∧ ((∀ t, 92 ∉ t → 92 ∉ lib.ToLower t) → 92 ∉ sub →
        ∃ p', GetEmailAddress lib w p (some s)
            = .returned (p', lib.ToLower sub ++ str "@local", none)
          ∧ GoMap.get p'.userGroups (lib.ToLower sub ++ str "@local") = some [str "local"]) := by
  have hlocal : 92 ∉ lib.ToLower sub →
      ∃ p', GetEmailAddress lib w p (some s)
          = .returned (p', lib.ToLower sub ++ str "@local", none)
        ∧ GoMap.get p'.userGroups (lib.ToLower sub ++ str "@local") = some [str "local"] := by
    intro hno
    refine ⟨{ p with
      userGroups :=
        GoMap.set p.userGroups (lib.ToLower sub ++ str "@local") [str "local"] }, ?_, ?_⟩
    · simp [GetEmailAddress, hparse, hvalid, hsub, Split_of_not_mem _ _ hno]
    · simp [GoMap.get_set]
  refine ⟨?_, hlocal, fun hlib hno => hlocal (hlib sub hno)⟩
  intro d u profileURL redeemURL req hform hd hu hprofile hredeem hreq
  obtain ⟨r, hr⟩ := getUserGroups_returns lib w p token.Raw profileURL redeemURL req
    hprofile hredeem hreq
  refine ⟨{ p with userGroups := GoMap.set p.userGroups (u ++ str "@" ++ d) r.1 }, ?_⟩
  simp [GetEmailAddress, hparse, hvalid, hsub, hform, Split_append_sep d u 92 hd,
    Split_of_not_mem u 92 hu, hr, Outcome.bind]

set_option maxRecDepth 100000 in
/-- Witness for C5: the subject `KONTUR\User` gives `user@kontur`. -/
theorem GetEmailAddress_subject_witness :
    ∃ p', GetEmailAddress exampleLib (exampleWorld 200 exampleGroupBody)
        { ProviderData :=
            { ProfileURL := some { Scheme := str "https", Host := str "passport.test.com",
                                   Path := str "/connect/userinfo" },
              RedeemURL := some { Scheme := str "https", Host := str "passport.test.com",
                                  Path := str "/connect/token" } } }
        (some { AccessToken := str "jwt.of.domain-user" })
      = .returned (p', str "user" ++ str "@" ++ str "kontur", none) :=
  (GetEmailAddress_subject exampleLib (exampleWorld 200 exampleGroupBody)
    { ProviderData :=
        { ProfileURL := some { Scheme := str "https", Host := str "passport.test.com",
                               Path := str "/connect/userinfo" },
          RedeemURL := some { Scheme := str "https", Host := str "passport.test.com",
                              Path := str "/connect/token" } } }
    { AccessToken := str "jwt.of.domain-user" }
    { Raw := str "jwt.of.domain-user", Valid := true,
      Claims := [(str "sub", .string (str "KONTUR\\User"))] }
    (str "KONTUR\\User") rfl rfl rfl).1
    (str "kontur") (str "user") _ _ _ (by decide) (by decide) (by decide) rfl rfl rfl

/-! ## Code redemption -/

/-- `Redeem` once the token endpoint has answered: with a status other than
200 the error of `apiRequest`, with status 200 and a body that parses the
session built from the document. -/
theorem Redeem_of_response (lib : Lib) (w : World) (p : PassportProvider)
    (redirectURL code codeVerifier : GoString) (redeemURL : URL) (req : Request)
    (resp : Response) (body : GoString)
    (hcode : code ≠ [])
    (hurl : p.ProviderData.RedeemURL = some redeemURL)
    (hreq : lib.NewRequest (str "POST") (lib.URLString redeemURL)
      (lib.Encode (redeemParams lib p redirectURL code)) = .ok req)
    (hdo : w.Do (redeemHeaders lib p req) = .ok resp)
    (hbody : resp.Body = .ok body) :
    (resp.StatusCode ≠ 200 →
      Redeem lib w p redirectURL code codeVerifier
        = .returned (none, some (.new (str "got " ++ formatInt resp.StatusCode ++ str " from "
            ++ lib.Quote (lib.URLString redeemURL) ++ str " " ++ body))))
    ∧ (resp.StatusCode = 200 → ∀ err, lib.NewJson body = .error err →
      Redeem lib w p redirectURL code codeVerifier = .returned (none, some err))
    ∧ (resp.StatusCode = 200 → ∀ json, lib.NewJson body = .ok json →
      Redeem lib w p redirectURL code codeVerifier
        = .returned
            (some { AccessToken := (json.Get (str "access_token")).String.1,
                    IDToken := (json.Get (str "id_token")).String.1 },
              (json.Get (str "access_token")).String.2)) := by
  refine ⟨?_, ?_, ?_⟩
  · intro hst
    simp [Redeem, hcode, hurl, hreq, apiRequest, hdo, hbody, hst, Outcome.bind]
  · intro hst err hj
    simp [Redeem, hcode, hurl, hreq, apiRequest, hdo, hbody, hst, hj, Outcome.bind]
  · intro hst json hj
    simp [Redeem, hcode, hurl, hreq, apiRequest, hdo, hbody, hst, hj, Outcome.bind]

/-- C6. For every non-empty authorization code, if the token endpoint answers
(the request is built, the client returns a response, its body is read) with a
status outside 2xx, `Redeem` returns no session and the error whose message is
`got <status> from "<redeem URL>" <body>`, with the status in decimal; for
status 403 the message starts with `got 403 `. -/
theorem Redeem_non_2xx (lib : Lib) (w : World) (p : PassportProvider)
    (redirectURL code codeVerifier : GoString) (redeemURL : URL) (req : Request)
    (resp : Response) (body : GoString)
    (hcode : code ≠ [])
    (hurl : p.ProviderData.RedeemURL = some redeemURL)
    (hreq : lib.NewRequest (str "POST") (lib.URLString redeemURL)
      (lib.Encode (redeemParams lib p redirectURL code)) = .ok req)
    (hdo : w.Do (redeemHeaders lib p req) = .ok resp)
    (hbody : resp.Body = .ok body)
    (hstatus : resp.StatusCode < 200 ∨ 299 < resp.StatusCode) :
    Redeem lib w p redirectURL code codeVerifier
        = .returned (none, some (.new (str "got " ++ formatInt resp.StatusCode ++ str " from "
            ++ lib.Quote (lib.URLString redeemURL) ++ str " " ++ body)))
    ∧ (resp.StatusCode = 403 →
        ∃ rest, Redeem lib w p redirectURL code codeVerifier
            = .returned (none, some (.new (str "got 403 " ++ rest)))
          ∧ rest = str "from " ++ lib.Quote (lib.URLString redeemURL) ++ str " " ++ body) := by
  have hne : resp.StatusCode ≠ 200 := by omega
  have hmain := (Redeem_of_response lib w p redirectURL code codeVerifier redeemURL req resp
    body hcode hurl hreq hdo hbody).1 hne
  refine ⟨hmain, ?_⟩
  intro h403
  refine ⟨_, ?_, rfl⟩
  rw [hmain, h403]
  have h : str "got " ++ formatInt 403 ++ str " from " = str "got 403 " ++ str "from " := by
    decide
  rw [h]
  simp [List.append_assoc]

set_option maxRecDepth 100000 in
/-- Witness for C6: the test server of `TestPassportProviderUnauth` answers 403
with the body `Unauthorized` and a newline. -/
theorem Redeem_non_2xx_witness :
    Redeem exampleLib (exampleWorld 403 (str "Unauthorized\n"))
        { ProviderData :=
            { RedeemURL := some { Scheme := str "http", Host := str "127.0.0.1:8080",
                                  Path := str "/login/oauth/access_token" },
              ClientID := str "asdlkjsadlkj", ClientSecret := str "secret" } }
        (str "http://127.0.0.1:8080/login/oauth/access_token") (str "code1234") []
      = .returned (none, some (.new
          (str "got 403 from \"http://127.0.0.1:8080/login/oauth/access_token\" Unauthorized\n"))) :=
  (Redeem_non_2xx exampleLib (exampleWorld 403 (str "Unauthorized\n"))
    { ProviderData :=
        { RedeemURL := some { Scheme := str "http", Host := str "127.0.0.1:8080",
                              Path := str "/login/oauth/access_token" },
          ClientID := str "asdlkjsadlkj", ClientSecret := str "secret" } }
    (str "http://127.0.0.1:8080/login/oauth/access_token") (str "code1234") [] _ _
    { StatusCode := 403, Body := .ok (str "Unauthorized\n") } (str "Unauthorized\n")
    (by decide) rfl rfl rfl rfl (by decide)).1

theorem Json.String_of_nil_error (j : Json) (h : j.String.2 = none) : j = .string j.String.1 := by
  cases j <;> simp [Json.String] at h ⊢

theorem Json.String_string (v : GoString) : (Json.string v).String = (v, none) := rfl

set_option maxRecDepth 100000 in
/-- C7, as stated, fails: the token endpoint answers 200 with a document that
has the string field `refresh_token` (`my_refresh_token`); `Redeem` returns
without error a session whose `RefreshToken` is empty. -/
theorem Redeem_refresh_token_counterexample :
    Redeem exampleLib (exampleWorld 200 exampleTokenBody)
        { ProviderData :=
            { RedeemURL := some { Scheme := str "http", Host := str "127.0.0.1:8080",
                                  Path := str "/login/oauth/access_token" },
              ClientID := str "asdlkjsadlkj", ClientSecret := str "secret" } }
        (str "http://127.0.0.1:8080/login/oauth/access_token") (str "code1234") []
      = .returned
          (some { AccessToken := str "my_auth_token", IDToken := str "my_id_token",
                  RefreshToken := [] }, none)
    ∧ (exampleLib.NewJson exampleTokenBody).toOption.map
          (fun json => (json.Get (str "refresh_token")).String)
        = some (str "my_refresh_token", none)
    ∧ ([] : GoString) ≠ str "my_refresh_token" := by
  refine ⟨by rfl, by rfl, by decide⟩

/-- C7, amended. Whenever `Redeem` returns without error, the token endpoint
answered 200 with a body that parsed to a document whose `access_token` is a
string, and the returned session's `AccessToken` is that string, its `IDToken`
is the document's `id_token` when that is a string and empty otherwise, and
every other field (`RefreshToken`, `Email`, `User`, `Groups`,
`PreferredUsername`, `ExpiresOn`, `CreatedAt`) is unset, whether or not the
document has a `refresh_token`. Conversely `Redeem` returns such a session
without error whenever the endpoint answers 200 with such a document. -/
theorem Redeem_session_fields (lib : Lib) (w : World) (p : PassportProvider)
    (redirectURL code codeVerifier : GoString) :
    (∀ s, Redeem lib w p redirectURL code codeVerifier = .returned (s, none) →
      ∃ redeemURL req resp body json sess,
        p.ProviderData.RedeemURL = some redeemURL
        ∧ lib.NewRequest (str "POST") (lib.URLString redeemURL)
            (lib.Encode (redeemParams lib p redirectURL code)) = .ok req
        ∧ w.Do (redeemHeaders lib p req) = .ok resp
        ∧ resp.StatusCode = 200 ∧ resp.Body = .ok body ∧ lib.NewJson body = .ok json
        ∧ s = some sess
        ∧ json.Get (str "access_token") = .string sess.AccessToken
        ∧ (∀ v, json.Get (str "id_token") = .string v → sess.IDToken = v)
        ∧ ((∀ v, json.Get (str "id_token") ≠ .string v) → sess.IDToken = [])
        ∧ sess.RefreshToken = [] ∧ sess.Email = [] ∧ sess.User = [] ∧ sess.Groups = []
        ∧ sess.PreferredUsername = [] ∧ sess.ExpiresOn = none ∧ sess.CreatedAt = none)
    ∧ (∀ redeemURL req resp body json accessToken, code ≠ [] →
        p.ProviderData.RedeemURL = some redeemURL →
        lib.NewRequest (str "POST") (lib.URLString redeemURL)
            (lib.Encode (redeemParams lib p redirectURL code)) = .ok req →
        w.Do (redeemHeaders lib p req) = .ok resp →
        resp.StatusCode = 200 → resp.Body = .ok body → lib.NewJson body = .ok json →
        json.Get (str "access_token") = .string accessToken →
        Redeem lib w p redirectURL code codeVerifier
          = .returned
              (some { AccessToken := accessToken,
                      IDToken := (json.Get (str "id_token")).String.1 }, none)) := by
  constructor
  · intro s h
    by_cases hcode : code = []
    · simp [Redeem, hcode] at h
    cases hurl : p.ProviderData.RedeemURL with
    | none => simp [Redeem, hcode, hurl] at h
    | some redeemURL =>
      cases hreq : lib.NewRequest (str "POST") (lib.URLString redeemURL)
          (lib.Encode (redeemParams lib p redirectURL code)) with
      | error e => simp [Redeem, hcode, hurl, hreq] at h
      | ok req =>
        cases hdo : w.Do (redeemHeaders lib p req) with
        | error e => simp [Redeem, hcode, hurl, hreq, apiRequest, hdo, Outcome.bind] at h
        | ok resp =>
          cases hbody : resp.Body with
          | error e =>
            simp [Redeem, hcode, hurl, hreq, apiRequest, hdo, hbody, Outcome.bind] at h
          | ok body =>
            obtain ⟨h1, h2, h3⟩ := Redeem_of_response lib w p redirectURL code codeVerifier
              redeemURL req resp body hcode hurl hreq hdo hbody
            by_cases hst : resp.StatusCode = 200
            · cases hj : lib.NewJson body with
              | error e =>
                rw [h2 hst e hj] at h
                simp at h
              | ok json =>
                rw [h3 hst json hj] at h
                simp only [Outcome.returned.injEq, Prod.mk.injEq] at h
                obtain ⟨hs, herr⟩ := h
                refine ⟨redeemURL, req, resp, body, json, _, rfl, hreq, hdo, hst, hbody, hj,
                  hs.symm, ?_, ?_, ?_, rfl, rfl, rfl, rfl, rfl, rfl, rfl⟩
                · exact Json.String_of_nil_error _ herr
                · intro v hv
                  simp [hv, Json.String]
                · intro hv
                  cases hid : json.Get (str "id_token") <;> simp [Json.String]
                  exact absurd hid (hv _)
            · rw [h1 hst] at h
              simp at h
  · intro redeemURL req resp body json accessToken hcode hurl hreq hdo hst hbody hj hat
    have h3 := (Redeem_of_response lib w p redirectURL code codeVerifier
      redeemURL req resp body hcode hurl hreq hdo hbody).2.2 hst json hj
    rw [h3, hat]
    rfl

set_option maxRecDepth 100000 in
/-- Witness for C7 amended: the token response of the examples. -/
theorem Redeem_session_fields_witness :
    Redeem exampleLib (exampleWorld 200 exampleTokenBody)
        { ProviderData :=
            { RedeemURL := some { Scheme := str "http", Host := str "127.0.0.1:8080",
                                  Path := str "/login/oauth/access_token" },
              ClientID := str "asdlkjsadlkj", ClientSecret := str "secret" } }
        (str "http://127.0.0.1:8080/login/oauth/access_token") (str "code1234") []
      = .returned
          (some { AccessToken := str "my_auth_token", IDToken := str "my_id_token" }, none) :=
  (Redeem_session_fields exampleLib (exampleWorld 200 exampleTokenBody)
    { ProviderData :=
        { RedeemURL := some { Scheme := str "http", Host := str "127.0.0.1:8080",
                              Path := str "/login/oauth/access_token" },
          ClientID := str "asdlkjsadlkj", ClientSecret := str "secret" } }
    (str "http://127.0.0.1:8080/login/oauth/access_token") (str "code1234") []).2
    _ _ { StatusCode := 200, Body := .ok exampleTokenBody } exampleTokenBody
    (.object [(str "access_token", .string (str "my_auth_token")),
      (str "id_token", .string (str "my_id_token")),
      (str "refresh_token", .string (str "my_refresh_token"))])
    (str "my_auth_token") (by decide) rfl rfl rfl rfl rfl rfl rfl

/-! ## Login URL -/

theorem Values.get_Set (v : Values) (key value k : GoString) :
    GoMap.get (Values.Set v key value) k = if key = k then some [value] else GoMap.get v k := by
  simp [Values.Set, GoMap.get_set]

theorem Values.get_Add (v : Values) (key value k : GoString) :
    GoMap.get (Values.Add v key value) k
      = if key = k then some ((GoMap.get v key).getD [] ++ [value]) else GoMap.get v k := by
  simp [Values.Add, GoMap.get_set]

set_option maxRecDepth 100000 in
/-- C8, as stated, fails: the base login URL has the query `client_id=old` and
the call passes the extra parameter `foo=bar`; the query of the URL returned
has neither `foo` nor the value `old` of `client_id`. -/
theorem GetLoginURL_extraParams_counterexample :
    GetLoginURL exampleLib
        { ProviderData :=
            { LoginURL := some { Scheme := str "https", Host := str "passport.test.com",
                                 Path := str "/connect/authorize",
                                 RawQuery := str "client_id=old" },
              ClientID := str "cid", Scope := str "profile email" } }
        (str "https://app.test/oauth2/callback") (str "st") (str "n") [(str "foo", [str "bar"])]
      = .returned
          ({ ProviderData :=
              { LoginURL := some { Scheme := str "https", Host := str "passport.test.com",
                                   Path := str "/connect/authorize",
                                   RawQuery := str "client_id=old" },
                ClientID := str "cid", Scope := str "profile email" } },
            str "https://passport.test.com/connect/authorize?client_id=cid&redirect_uri=https%3A%2F%2Fapp.test%2Foauth2%2Fcallback&response_type=code&scope=profile+email&state=st")
    ∧ exampleParseQuery (str "client_id=cid&redirect_uri=https%3A%2F%2Fapp.test%2Foauth2%2Fcallback&response_type=code&scope=profile+email&state=st")
      = ([(str "client_id", [str "cid"]),
          (str "redirect_uri", [str "https://app.test/oauth2/callback"]),
          (str "response_type", [str "code"]), (str "scope", [str "profile email"]),
          (str "state", [str "st"])], none)
    ∧ exampleParseQuery (str "client_id=old") = ([(str "client_id", [str "old"])], none) := by
  refine ⟨by rfl, by rfl, by rfl⟩

/-- C8, amended. For every provider with a login URL and every
`(redirectURI, state, nonce, extraParams)`, `GetLoginURL` returns the string of
the base login URL with its query replaced by the encoding of parameters in
which `redirect_uri`, `client_id` and `response_type` have exactly one value
(the redirect URI, the configured client id, `code`; a value the base query had
under one of these keys is dropped), `scope` and `state` have the values of the
base query followed by the configured scope and the given state, and every
other key has the values `url.ParseQuery` read from the base query. `nonce` and
`extraParams` are not read: the result is the same for all of them. -/
theorem GetLoginURL_query (lib : Lib) (p : PassportProvider)
    (redirectURI state nonce : GoString) (extraParams : Values) (loginURL : URL)
    (hurl : p.ProviderData.LoginURL = some loginURL) :
    GetLoginURL lib p redirectURI state nonce extraParams
        = .returned (p, lib.URLString
            { loginURL with
              RawQuery := lib.Encode (loginParams lib p loginURL redirectURI state) })
    ∧ GoMap.get (loginParams lib p loginURL redirectURI state) (str "redirect_uri")
        = some [redirectURI]
    ∧ GoMap.get (loginParams lib p loginURL redirectURI state) (str "client_id")
        = some [p.ProviderData.ClientID]
    ∧ GoMap.get (loginParams lib p loginURL redirectURI state) (str "response_type")
        = some [str "code"]
    ∧ GoMap.get (loginParams lib p loginURL redirectURI state) (str "scope")
        = some ((GoMap.get (lib.ParseQuery loginURL.RawQuery).1 (str "scope")).getD []
            ++ [p.ProviderData.Scope])
    ∧ GoMap.get (loginParams lib p loginURL redirectURI state) (str "state")
        = some ((GoMap.get (lib.ParseQuery loginURL.RawQuery).1 (str "state")).getD []
            ++ [state])
    ∧ (∀ k, k ≠ str "redirect_uri" → k ≠ str "client_id" → k ≠ str "response_type" →
        k ≠ str "scope" → k ≠ str "state" →
        GoMap.get (loginParams lib p loginURL redirectURI state) k
          = GoMap.get (lib.ParseQuery loginURL.RawQuery).1 k)
    ∧ (∀ nonce' extraParams',
        GetLoginURL lib p redirectURI state nonce' extraParams'
          = GetLoginURL lib p redirectURI state nonce extraParams) := by
  have h1 : str "redirect_uri" ≠ str "scope" := by decide
  have h2 : str "redirect_uri" ≠ str "client_id" := by decide
  have h3 : str "redirect_uri" ≠ str "response_type" := by decide
  have h4 : str "redirect_uri" ≠ str "state" := by decide
  have h5 : str "scope" ≠ str "client_id" := by decide
  have h6 : str "scope" ≠ str "response_type" := by decide
  have h7 : str "scope" ≠ str "state" := by decide
  have h8 : str "client_id" ≠ str "response_type" := by decide
  have h9 : str "client_id" ≠ str "state" := by decide
  have h10 : str "response_type" ≠ str "state" := by decide
  refine ⟨?_, ?_, ?_, ?_, ?_, ?_, ?_, ?_⟩
  · simp [GetLoginURL, hurl]
  · simp [loginParams, Values.get_Set, Values.get_Add, h1.symm, h2.symm, h3.symm, h4.symm]
  · simp [loginParams, Values.get_Set, Values.get_Add, h9.symm, h8.symm]
  · simp [loginParams, Values.get_Set, Values.get_Add, h10.symm]
  · simp [loginParams, Values.get_Set, Values.get_Add, h1, h5.symm, h6.symm, h7.symm]
  · simp [loginParams, Values.get_Set, Values.get_Add, h4, h7, h9, h10]
  · intro k k1 k2 k3 k4 k5
    simp [loginParams, Values.get_Set, Values.get_Add, k1.symm, k2.symm, k3.symm, k4.symm,
      k5.symm]
  · intro nonce' extraParams'
    rfl

set_option maxRecDepth 100000 in
/-- Witness for C8 amended: the base login URL of the tests, with a query. -/
theorem GetLoginURL_query_witness :
    GetLoginURL exampleLib
        { ProviderData :=
            { LoginURL := some { Scheme := str "https", Host := str "passport.test.com",
                                 Path := str "/connect/authorize",
                                 RawQuery := str "scope=openid&prompt=login" },
              ClientID := str "cid", Scope := str "profile email" } }
        (str "https://app.test/oauth2/callback") (str "st") (str "n") []
      = .returned
          ({ ProviderData :=
              { LoginURL := some { Scheme := str "https", Host := str "passport.test.com",
                                   Path := str "/connect/authorize",
                                   RawQuery := str "scope=openid&prompt=login" },
                ClientID := str "cid", Scope := str "profile email" } },
            str "https://passport.test.com/connect/authorize?client_id=cid&prompt=login&redirect_uri=https%3A%2F%2Fapp.test%2Foauth2%2Fcallback&response_type=code&scope=openid&scope=profile+email&state=st") :=
  (GetLoginURL_query exampleLib
    { ProviderData :=
        { LoginURL := some { Scheme := str "https", Host := str "passport.test.com",
                             Path := str "/connect/authorize",
                             RawQuery := str "scope=openid&prompt=login" },
          ClientID := str "cid", Scope := str "profile email" } }
    (str "https://app.test/oauth2/callback") (str "st") (str "n") [] _ rfl).1

/-- C9. `GetLoginURL` does not modify the provider: after the call the provider
is the one before it, its `LoginURL` (and so its `RawQuery`) included; so the
call returns, and a second call with the same arguments on the provider the
first one left returns the same URL string. -/
theorem GetLoginURL_frame (lib : Lib) (p : PassportProvider)
    (redirectURI state nonce : GoString) (extraParams : Values) (loginURL : URL)
    (hurl : p.ProviderData.LoginURL = some loginURL) :
    ∃ url, GetLoginURL lib p redirectURI state nonce extraParams = .returned (p, url)
      ∧ (∀ p' url', GetLoginURL lib p redirectURI state nonce extraParams = .returned (p', url') →
          p' = p ∧ p'.ProviderData.LoginURL = some loginURL
            ∧ (p'.ProviderData.LoginURL.map fun u => u.RawQuery) = some loginURL.RawQuery)
      ∧ (GetLoginURL lib p redirectURI state nonce extraParams).bind
          (fun r => GetLoginURL lib r.1 redirectURI state nonce extraParams)
          = .returned (p, url) := by
  have h : GetLoginURL lib p redirectURI state nonce extraParams
      = .returned (p, lib.URLString
          { loginURL with
            RawQuery := lib.Encode (loginParams lib p loginURL redirectURI state) }) := by
    simp [GetLoginURL, hurl]
  refine ⟨_, h, ?_, ?_⟩
  · intro p' url' h'
    rw [h] at h'
    simp only [Outcome.returned.injEq, Prod.mk.injEq] at h'
    obtain ⟨hp, _⟩ := h'
    subst hp
    exact ⟨rfl, hurl, by rw [hurl]; rfl⟩
  · rw [h]
    simp only [Outcome.bind]
    exact h

set_option maxRecDepth 100000 in
/-- Witness for C9: two calls on the provider of the tests. -/
theorem GetLoginURL_frame_witness :
    ∃ url, GetLoginURL exampleLib
        { ProviderData :=
            { LoginURL := some { Scheme := str "https", Host := str "passport.test.com",
                                 Path := str "/connect/authorize" },
              ClientID := str "cid", Scope := str "profile email" } }
        (str "https://app.test/oauth2/callback") (str "st") (str "n") []
      = .returned
          ({ ProviderData :=
              { LoginURL := some { Scheme := str "https", Host := str "passport.test.com",
                                   Path := str "/connect/authorize" },
                ClientID := str "cid", Scope := str "profile email" } }, url) :=
  (GetLoginURL_frame exampleLib
    { ProviderData :=
        { LoginURL := some { Scheme := str "https", Host := str "passport.test.com",
                             Path := str "/connect/authorize" },
          ClientID := str "cid", Scope := str "profile email" } }
    (str "https://app.test/oauth2/callback") (str "st") (str "n") [] _ rfl).imp
    fun _ h => h.1

/-! ## Provider construction -/

theorem loadKey_no_key (lib : Lib) (w : World) (p : PassportProvider)
    (hkey : w.Getenv (str "PASSPORT_KEY") = []) :
    loadKey lib w p = .returned (p, some ErrKeyFileNotSet) := by
  simp [loadKey, hkey]

theorem loadAllowed_no_file (lib : Lib) (w : World) (p : PassportProvider)
    (hauth : w.Getenv (str "AUTH_FILE") = []) : loadAllowed lib w p = (p, none) := by
  simp [loadAllowed, hauth]

set_option maxRecDepth 100000 in
/-- C10, as stated, fails: all three URLs are set, `PASSPORT_KEY` is empty and
`AUTH_FILE` names a file that does not exist; the error returned is the one of
loading the authorization file, not `ErrKeyFileNotSet`. -/
theorem NewPassportProvider_key_error_counterexample :
    NewPassportProvider exampleLib
        { exampleWorld 200 [] with
          Getenv := fun name =>
            if name = str "AUTH_FILE" then str "/etc/oauth2-proxy/auth.yml" else [] }
        { LoginURL := some { Scheme := str "https", Host := str "passport.test.com",
                             Path := str "/connect/authorize" },
          RedeemURL := some { Scheme := str "https", Host := str "passport.test.com",
                              Path := str "/connect/token" },
          ProfileURL := some { Scheme := str "https", Host := str "passport.test.com",
                               Path := str "/connect/userinfo" } }
      = .returned
          ({ ProviderName := str "Passport",
             LoginURL := some { Scheme := str "https", Host := str "passport.test.com",
                                Path := str "/connect/authorize" },
             RedeemURL := some { Scheme := str "https", Host := str "passport.test.com",
                                 Path := str "/connect/token" },
             ProfileURL := some { Scheme := str "https", Host := str "passport.test.com",
                                  Path := str "/connect/userinfo" },
             Scope := str "profile email", noValidate := true },
            none,
            some (.new (str "auth file load err open /etc/oauth2-proxy/auth.yml: no such file or directory, /etc/oauth2-proxy/auth.yml ")))
    ∧ GoError.new (str "auth file load err open /etc/oauth2-proxy/auth.yml: no such file or directory, /etc/oauth2-proxy/auth.yml ")
        ≠ ErrKeyFileNotSet := by
  refine ⟨by rfl, by decide⟩

/-- C10, amended. `NewPassportProvider` returns an error and no provider
whenever `LoginURL`, `RedeemURL` or `ProfileURL` is nil, and also whenever the
`PASSPORT_KEY` environment variable is empty even if all three URLs are set;
the error is then `ErrKeyFileNotSet` when loading the authorization table
succeeded (in particular when `AUTH_FILE` is empty), and the error of loading
the authorization table otherwise. -/
theorem NewPassportProvider_incomplete (lib : Lib) (w : World) (p : ProviderData) :
    ((p.LoginURL = none ∨ p.RedeemURL = none ∨ p.ProfileURL = none) →
        ∃ err, NewPassportProvider lib w p = .returned (p, none, some err))
    ∧ (p.LoginURL ≠ none → p.RedeemURL ≠ none → p.ProfileURL ≠ none →
        w.Getenv (str "PASSPORT_KEY") = [] →
        ∃ p' err, NewPassportProvider lib w p = .returned (p', none, some err)
          ∧ ((loadAllowed lib w { ProviderData := p' }).2 = none → err = ErrKeyFileNotSet)
          ∧ (w.Getenv (str "AUTH_FILE") = [] → err = ErrKeyFileNotSet)
          ∧ (∀ e, (loadAllowed lib w { ProviderData := p' }).2 = some e → err = e)) := by
  constructor
  · intro h
    by_cases h1 : p.LoginURL = none
    · exact ⟨errorsNew "login_url not set", by simp [NewPassportProvider, h1]⟩
    by_cases h2 : p.RedeemURL = none
    · exact ⟨errorsNew "redeem_url not set", by simp [NewPassportProvider, h1, h2]⟩
    by_cases h3 : p.ProfileURL = none
    · exact ⟨errorsNew "profile_url not set", by simp [NewPassportProvider, h1, h2, h3]⟩
    rcases h with h | h | h
    · exact absurd h h1
    · exact absurd h h2
    · exact absurd h h3
  · intro h1 h2 h3 hkey
    refine ⟨{ lib.setProviderDefaults p
        { name := passportProviderName, scope := lib.googleDefaultScope } with
        noValidate := true }, ?_⟩
    cases hla : loadAllowed lib w
      { ProviderData := { lib.setProviderDefaults p
          { name := passportProviderName, scope := lib.googleDefaultScope } with
          noValidate := true } } with
    | mk provider e =>
      cases e with
      | some err =>
        refine ⟨err, ?_, ?_, ?_, ?_⟩
        · simp [NewPassportProvider, h1, h2, h3, hla]
        · intro hnone
          simp at hnone
        · intro hauth
          rw [loadAllowed_no_file lib w _ hauth] at hla
          simp at hla
        · intro e he
          simpa using he
      | none =>
        refine ⟨ErrKeyFileNotSet, ?_, fun _ => rfl, fun _ => rfl, ?_⟩
        · simp [NewPassportProvider, h1, h2, h3, hla, loadKey_no_key lib w provider hkey,
            Outcome.bind]
        · intro e he
          simp at he

set_option maxRecDepth 100000 in
/-- Witness for C10 amended: the second call of
`TestNewPassportProviderIncomplete`, all three URLs set and both environment
variables empty. -/
theorem NewPassportProvider_incomplete_witness :
    ∃ p' err, NewPassportProvider exampleLib (exampleWorld 200 [])
        { LoginURL := some { Scheme := str "https", Host := str "passport.test.com",
                             Path := str "/connect/authorize" },
          RedeemURL := some { Scheme := str "https", Host := str "passport.test.com",
                              Path := str "/connect/token" },
          ProfileURL := some { Scheme := str "https", Host := str "passport.test.com",
                               Path := str "/connect/userinfo" } }
        = .returned (p', none, some err) ∧ err = ErrKeyFileNotSet :=
  ((NewPassportProvider_incomplete exampleLib (exampleWorld 200 [])
    { LoginURL := some { Scheme := str "https", Host := str "passport.test.com",
                         Path := str "/connect/authorize" },
      RedeemURL := some { Scheme := str "https", Host := str "passport.test.com",
                          Path := str "/connect/token" },
      ProfileURL := some { Scheme := str "https", Host := str "passport.test.com",
                           Path := str "/connect/userinfo" } }).2
    (by decide) (by decide) (by decide) rfl).imp
    fun _ h => h.imp fun _ h' => ⟨h'.1, h'.2.2.1 rfl⟩

/-! ## The authorization file at construction -/

set_option maxRecDepth 100000 in
/-- C11, as stated, fails: the three URLs are set, `PASSPORT_KEY` names a file
that holds an RSA public key and `AUTH_FILE` is empty; `NewPassportProvider`
returns a provider with an empty authorization table and a nil error. -/
theorem NewPassportProvider_no_auth_file_counterexample :
    exampleKeyWorld.Getenv (str "AUTH_FILE") = []
    ∧ NewPassportProvider exampleKeyLib exampleKeyWorld
        { LoginURL := some { Scheme := str "https", Host := str "passport.test.com",
                             Path := str "/connect/authorize" },
          RedeemURL := some { Scheme := str "https", Host := str "passport.test.com",
                              Path := str "/connect/token" },
          ProfileURL := some { Scheme := str "https", Host := str "passport.test.com",
                               Path := str "/connect/userinfo" } }
      = .returned
          ({ ProviderName := str "Passport",
             LoginURL := some { Scheme := str "https", Host := str "passport.test.com",
                                Path := str "/connect/authorize" },
             RedeemURL := some { Scheme := str "https", Host := str "passport.test.com",
                                 Path := str "/connect/token" },
             ProfileURL := some { Scheme := str "https", Host := str "passport.test.com",
                                  Path := str "/connect/userinfo" },
             Scope := str "profile email", noValidate := true },
            some
              { ProviderData :=
                  { ProviderName := str "Passport",
                    LoginURL := some { Scheme := str "https", Host := str "passport.test.com",
                                       Path := str "/connect/authorize" },
                    RedeemURL := some { Scheme := str "https", Host := str "passport.test.com",
                                        Path := str "/connect/token" },
                    ProfileURL := some { Scheme := str "https", Host := str "passport.test.com",
                                         Path := str "/connect/userinfo" },
                    Scope := str "profile email", noValidate := true },
                userGroups := [], auth := [], publicKey := some { N := 3233, E := 17 } },
            none) := by
  refine ⟨by rfl, by rfl⟩

/-- C11, amended. With the three URLs set, `NewPassportProvider` returns an
error and no provider whenever `AUTH_FILE` names a file that cannot be read or
that `yaml.Unmarshal` rejects, whatever the public key; the error is the one of
`loadAllowed`. When `AUTH_FILE` is unset or empty no file is read and no error
arises from it: with a valid key the call returns, with a nil error, a provider
whose authorization table is empty. -/
theorem NewPassportProvider_auth_file (lib : Lib) (w : World) (p : ProviderData)
    (h1 : p.LoginURL ≠ none) (h2 : p.RedeemURL ≠ none) (h3 : p.ProfileURL ≠ none) :
    (∀ err, w.Getenv (str "AUTH_FILE") ≠ [] →
        w.ReadFile (w.Getenv (str "AUTH_FILE")) = .error err →
        ∃ p', NewPassportProvider lib w p
          = .returned (p', none, some (.new (str "auth file load err " ++ err.Error ++ str ", "
              ++ w.Getenv (str "AUTH_FILE") ++ str " "))))
    ∧ (∀ yamlFile err, w.Getenv (str "AUTH_FILE") ≠ [] →
        w.ReadFile (w.Getenv (str "AUTH_FILE")) = .ok yamlFile →
        lib.yamlUnmarshal yamlFile [] = .error err →
        ∃ p', NewPassportProvider lib w p
          = .returned (p', none, some (.new (str "auth file unmarshall err " ++ err.Error
              ++ str ", " ++ w.Getenv (str "AUTH_FILE") ++ str " "))))
    ∧ (∀ b der key, w.Getenv (str "AUTH_FILE") = [] →
        w.Getenv (str "PASSPORT_KEY") ≠ [] →
        w.ReadFile (w.Getenv (str "PASSPORT_KEY")) = .ok b →
        lib.pemDecode b = some der →
        lib.ParsePKIXPublicKey der = .ok (.rsa key) →
        ∃ p', NewPassportProvider lib w p
          = .returned
              (p', some { ProviderData := p', userGroups := [], auth := [],
                          publicKey := some key }, none)) := by
  refine ⟨?_, ?_, ?_⟩
  · intro err hauth hread
    refine ⟨{ lib.setProviderDefaults p
        { name := passportProviderName, scope := lib.googleDefaultScope } with
        noValidate := true }, ?_⟩
    simp [NewPassportProvider, h1, h2, h3, loadAllowed, hauth, hread]
  · intro yamlFile err hauth hread hyaml
    refine ⟨{ lib.setProviderDefaults p
        { name := passportProviderName, scope := lib.googleDefaultScope } with
        noValidate := true }, ?_⟩
    simp [NewPassportProvider, h1, h2, h3, loadAllowed, hauth, hread, hyaml]
  · intro b der key hauth hkey hread hpem hparse
    refine ⟨{ lib.setProviderDefaults p
        { name := passportProviderName, scope := lib.googleDefaultScope } with
        noValidate := true }, ?_⟩
    simp [NewPassportProvider, h1, h2, h3, loadAllowed, hauth, loadKey, hkey, hread, hpem,
      hparse, Outcome.bind]

set_option maxRecDepth 100000 in
/-- Witness for C11 amended: `AUTH_FILE` names a file that does not exist. -/
theorem NewPassportProvider_auth_file_witness :
    ∃ p', NewPassportProvider exampleKeyLib
        { exampleKeyWorld with
          Getenv := fun name =>
            if name = str "AUTH_FILE" then str "/etc/oauth2-proxy/auth.yml"
            else exampleKeyWorld.Getenv name }
        { LoginURL := some { Scheme := str "https", Host := str "passport.test.com",
                             Path := str "/connect/authorize" },
          RedeemURL := some { Scheme := str "https", Host := str "passport.test.com",
                              Path := str "/connect/token" },
          ProfileURL := some { Scheme := str "https", Host := str "passport.test.com",
                               Path := str "/connect/userinfo" } }
      = .returned (p', none, some (.new (str "auth file load err "
          ++ GoError.Error (.new (str "open /etc/oauth2-proxy/auth.yml: no such file or directory"))
          ++ str ", " ++ str "/etc/oauth2-proxy/auth.yml" ++ str " "))) :=
  (NewPassportProvider_auth_file exampleKeyLib
    { exampleKeyWorld with
      Getenv := fun name =>
        if name = str "AUTH_FILE" then str "/etc/oauth2-proxy/auth.yml"
        else exampleKeyWorld.Getenv name }
    { LoginURL := some { Scheme := str "https", Host := str "passport.test.com",
                         Path := str "/connect/authorize" },
      RedeemURL := some { Scheme := str "https", Host := str "passport.test.com",
                          Path := str "/connect/token" },
      ProfileURL := some { Scheme := str "https", Host := str "passport.test.com",
                           Path := str "/connect/userinfo" } }
    (by decide) (by decide) (by decide)).1
    (.new (str "open /etc/oauth2-proxy/auth.yml: no such file or directory"))
    (by decide) rfl

/-! ## Cookie domain -/

theorem domainMatches_iff (host domain : GoString) :
    domainMatches host domain = true
      ↔ domain = host ∨ (domain.head? = some 46 ∧ domain <:+ host) := by
  simp [domainMatches, HasSuffix]

theorem Resolve_first_match (host : GoString) (pre : List GoString) (d : GoString)
    (post : List GoString) (hd : domainMatches host d = true)
    (hpre : ∀ d' ∈ pre, domainMatches host d' = false) :
    Resolve host (pre ++ d :: post) = d := by
  induction pre with
  | nil => simp [Resolve, hd]
  | cons x xs ih =>
    have hx : domainMatches host x = false := hpre x (List.mem_cons_self _ _)
    have hxs : ∀ d' ∈ xs, domainMatches host d' = false :=
      fun d' h => hpre d' (List.mem_cons_of_mem _ h)
    simp [Resolve, hx, ih hxs]

theorem Resolve_no_match (host : GoString) (domains : List GoString)
    (hno : ∀ d ∈ domains, domainMatches host d = false) : Resolve host domains = [] := by
  induction domains with
  | nil => rfl
  | cons x xs ih =>
    have hx : domainMatches host x = false := hno x (List.mem_cons_self _ _)
    simp [Resolve, hx, ih (fun d h => hno d (List.mem_cons_of_mem _ h))]

/-- The table of `pkg/cookies/cookies_test.go`: the modelled `GetCookieDomain`
returns the expected output on each of its seven entries. -/
theorem GetCookieDomain_test_table :
    GetCookieDomain { Host := str "www.cookies.test" } none [str "www.cookies.test"]
        = str "www.cookies.test"
    ∧ GetCookieDomain
          { Host := str "backend.cookies.internal",
            Header := [(str "X-Forwarded-Host", [str "www.cookies.test"])] }
          (some { ReverseProxy := true }) [str "www.cookies.test"]
        = str "www.cookies.test"
    ∧ GetCookieDomain { Host := str "www.cookies.test" } none [str ".cookies.test"]
        = str ".cookies.test"
    ∧ GetCookieDomain
          { Host := str "backend.cookies.internal",
            Header := [(str "X-Forwarded-Host", [str "www.cookies.test"])] }
          (some { ReverseProxy := true }) [str ".cookies.test"]
        = str ".cookies.test"
    ∧ GetCookieDomain { Host := str "www.cookies.test" } none
          [str "www.cookies.test", str ".cookies.test"]
        = str "www.cookies.test"
    ∧ GetCookieDomain { Host := str "www.cookies.test" } none
          [str ".cookies.wrong", str ".cookies.test"]
        = str ".cookies.test"
    ∧ GetCookieDomain { Host := str "www.cookies.test" } none
          [str ".cookies.wrong", str ".cookies.false"]
        = str "" := by
  refine ⟨by decide, by decide, by decide, by decide, by decide, by decide, by decide⟩

/-- C12. The effective host is the `X-Forwarded-Host` header when the request
scope is flagged as behind a reverse proxy and the request's `Host` otherwise.
For every such host and every list of configured cookie domains,
`GetCookieDomain` returns verbatim the first entry, in configured order, that
equals the host exactly or that begins with `.` and is a suffix of the host,
and returns the empty string when no entry matches; `["www.cookies.test",
".cookies.test"]` with host `www.cookies.test` gives `www.cookies.test` and
`[".cookies.wrong", ".cookies.false"]` gives the empty string. -/
theorem GetCookieDomain_first_match (req : Request) (scope : Option RequestScope)
    (cookieDomains : List GoString) :
    (∀ sc, scope = some sc → sc.ReverseProxy = true →
        effectiveHost req scope = headerGet req.Header (str "X-Forwarded-Host"))
    ∧ ((scope = none ∨ ∃ sc, scope = some sc ∧ sc.ReverseProxy = false) →
        effectiveHost req scope = req.Host)
    ∧ (∀ pre d post, cookieDomains = pre ++ d :: post →
        (d = effectiveHost req scope ∨ (d.head? = some 46 ∧ d <:+ effectiveHost req scope)) →
        (∀ d' ∈ pre, ¬ (d' = effectiveHost req scope
            ∨ (d'.head? = some 46 ∧ d' <:+ effectiveHost req scope))) →
        GetCookieDomain req scope cookieDomains = d)
    ∧ ((∀ d ∈ cookieDomains, ¬ (d = effectiveHost req scope
            ∨ (d.head? = some 46 ∧ d <:+ effectiveHost req scope))) →
        GetCookieDomain req scope cookieDomains = [])
    ∧ GetCookieDomain { Host := str "www.cookies.test" } none
          [str "www.cookies.test", str ".cookies.test"]
        = str "www.cookies.test"
    ∧ GetCookieDomain { Host := str "www.cookies.test" } none
          [str ".cookies.wrong", str ".cookies.false"]
        = str "" := by
  refine ⟨?_, ?_, ?_, ?_, by decide, by decide⟩
  · intro sc hsc hflag
    simp [effectiveHost, hsc, hflag]
  · rintro (hnone | ⟨sc, hsc, hflag⟩)
    · simp [effectiveHost, hnone]
    · simp [effectiveHost, hsc, hflag]
  · intro pre d post hlist hd hpre
    unfold GetCookieDomain
    rw [hlist]
    apply Resolve_first_match
    · exact (domainMatches_iff _ _).mpr hd
    · intro d' hd'
      cases hm : domainMatches (effectiveHost req scope) d' with
      | false => rfl
      | true => exact absurd ((domainMatches_iff _ _).mp hm) (hpre d' hd')
  · intro hno
    unfold GetCookieDomain
    apply Resolve_no_match
    intro d hd
    cases hm : domainMatches (effectiveHost req scope) d with
    | false => rfl
    | true => exact absurd ((domainMatches_iff _ _).mp hm) (hno d hd)

/-- Witness for C12: behind a reverse proxy, with the forwarded host
`www.cookies.test`, the second of three configured domains is the first that
matches. -/
theorem GetCookieDomain_first_match_witness :
    GetCookieDomain
        { Host := str "backend.cookies.internal",
          Header := [(str "X-Forwarded-Host", [str "www.cookies.test"])] }
        (some { ReverseProxy := true })
        [str ".cookies.wrong", str ".cookies.test", str "www.cookies.test"]
      = str ".cookies.test" :=
  (GetCookieDomain_first_match
    { Host := str "backend.cookies.internal",
      Header := [(str "X-Forwarded-Host", [str "www.cookies.test"])] }
    (some { ReverseProxy := true })
    [str ".cookies.wrong", str ".cookies.test", str "www.cookies.test"]).2.2.1
    [str ".cookies.wrong"] (str ".cookies.test") [str "www.cookies.test"] rfl
    (by decide) (by decide)

/-! ## Metrics -/

theorem Replace_eq_map (s : GoString) (old new : Byte) :
    Replace s old new = s.map fun c => if c = old then new else c := by
  induction s with
  | nil => rfl
  | cons c cs ih => simp [Replace, ih]

/-- A counter name `<base>attemptedWith.<method>` differs from `<base>total`. -/
theorem attemptedWith_ne_total (base method : GoString) :
    base ++ str "attemptedWith." ++ method ≠ base ++ str "total" := by
  intro h
  have h1 : str "attemptedWith." = 97 :: str "ttemptedWith." := by decide
  have h2 : str "total" = 116 :: str "otal" := by decide
  rw [List.append_assoc, h1, h2] at h
  have h3 := List.append_cancel_left h
  simp at h3

/-- A counter name `<base><alias>.<method>` differs from `<base>total`. -/
theorem entry_ne_total (base entryAlias method : GoString) :
    base ++ entryAlias ++ str "." ++ method ≠ base ++ str "total" := by
  intro h
  have h1 : str "." = [46] := by decide
  rw [List.append_assoc, List.append_assoc, h1] at h
  have h3 := List.append_cancel_left h
  have hmem : (46 : Byte) ∈ entryAlias ++ ([46] ++ method) := by simp
  rw [h3] at hmem
  exact absurd hmem (by decide)

/-- C13. For each of `incrementBasicSuccess`, `incrementBasicFailed`,
`incrementAuthorizeFailed` and `incrementCallbackFailed`: with a nil sink the
call leaves the proxy as it is (nothing is emitted, nothing fails); with a sink
it calls `Increment` exactly twice, first with the specific counter and then
with the matching total, two different names. The specific success counter is
`basicAuth.authenticated.<alias>.<method>` with every `.` of the alias replaced
by `-`; the other three are `basicAuth.unauthenticated.attemptedWith.<method>`,
`basicAuth.unauthorized.attemptedWith.<method>` and
`basicAuth.callbackfail.attemptedWith.<method>`. -/
theorem increment_counters (p : OAuthProxy) (entryAlias method : GoString) :
    (p.StatsD = none →
        incrementBasicSuccess p entryAlias method = p ∧ incrementBasicFailed p method = p
        ∧ incrementAuthorizeFailed p method = p ∧ incrementCallbackFailed p method = p)
    ∧ (∀ c, p.StatsD = some c →
        incrementBasicSuccess p entryAlias method
          = { p with
              StatsD := some
                { incremented := c.incremented ++
                    [str "basicAuth.authenticated."
                        ++ (entryAlias.map fun b => if b = 46 then 45 else b)
                        ++ str "." ++ method,
                      str "basicAuth.authenticated.total"] } }
        ∧ str "basicAuth.authenticated." ++ (entryAlias.map fun b => if b = 46 then 45 else b)
              ++ str "." ++ method ≠ str "basicAuth.authenticated.total"
        ∧ (46 : Byte) ∉ entryAlias.map (fun b => if b = 46 then 45 else b)
        ∧ incrementBasicFailed p method
          = { p with
              StatsD := some
                { incremented := c.incremented ++
                    [str "basicAuth.unauthenticated.attemptedWith." ++ method,
                      str "basicAuth.unauthenticated.total"] } }
        ∧ str "basicAuth.unauthenticated.attemptedWith." ++ method
            ≠ str "basicAuth.unauthenticated.total"
        ∧ incrementAuthorizeFailed p method
          = { p with
              StatsD := some
                { incremented := c.incremented ++
                    [str "basicAuth.unauthorized.attemptedWith." ++ method,
                      str "basicAuth.unauthorized.total"] } }
        ∧ str "basicAuth.unauthorized.attemptedWith." ++ method
            ≠ str "basicAuth.unauthorized.total"
        ∧ incrementCallbackFailed p method
          = { p with
              StatsD := some
                { incremented := c.incremented ++
                    [str "basicAuth.callbackfail.attemptedWith." ++ method,
                      str "basicAuth.callbackfail.total"] } }
        ∧ str "basicAuth.callbackfail.attemptedWith." ++ method
            ≠ str "basicAuth.callbackfail.total") := by
  constructor
  · intro hnil
    simp [incrementBasicSuccess, incrementBasicFailed, incrementAuthorizeFailed,
      incrementCallbackFailed, hnil]
  · intro c hc
    have e1 : str "basicAuth.authenticated.total" = str "basicAuth.authenticated." ++ str "total" := by
      decide
    have e2 : str "basicAuth.unauthenticated.attemptedWith."
        = str "basicAuth.unauthenticated." ++ str "attemptedWith." := by decide
    have e3 : str "basicAuth.unauthenticated.total"
        = str "basicAuth.unauthenticated." ++ str "total" := by decide
    have e4 : str "basicAuth.unauthorized.attemptedWith."
        = str "basicAuth.unauthorized." ++ str "attemptedWith." := by decide
    have e5 : str "basicAuth.unauthorized.total"
        = str "basicAuth.unauthorized." ++ str "total" := by decide
    have e6 : str "basicAuth.callbackfail.attemptedWith."
        = str "basicAuth.callbackfail." ++ str "attemptedWith." := by decide
    have e7 : str "basicAuth.callbackfail.total"
        = str "basicAuth.callbackfail." ++ str "total" := by decide
    refine ⟨?_, ?_, ?_, ?_, ?_, ?_, ?_, ?_, ?_⟩
    · simp [incrementBasicSuccess, hc, StatsDClient.Increment, Replace_eq_map]
    · rw [e1]
      exact entry_ne_total _ _ _
    · intro hmem
      obtain ⟨b, _, hb⟩ := List.mem_map.mp hmem
      by_cases h46 : b = 46
      · simp [h46] at hb
      · simp [h46] at hb
    · simp [incrementBasicFailed, hc, StatsDClient.Increment]
    · rw [e2, e3]
      exact attemptedWith_ne_total _ _
    · simp [incrementAuthorizeFailed, hc, StatsDClient.Increment]
    · rw [e4, e5]
      exact attemptedWith_ne_total _ _
    · simp [incrementCallbackFailed, hc, StatsDClient.Increment]
    · rw [e6, e7]
      exact attemptedWith_ne_total _ _

/-- Witness for C13: a success for the alias `my.app.v1` with the method
`basic`, on a sink that has counted nothing yet. -/
theorem increment_counters_witness :
    incrementBasicSuccess { StatsD := some {} } (str "my.app.v1") (str "basic")
      = { StatsD := some
            { incremented :=
                [str "basicAuth.authenticated.my-app-v1.basic",
                  str "basicAuth.authenticated.total"] } } :=
  ((increment_counters { StatsD := some {} } (str "my.app.v1") (str "basic")).2 {} rfl).1

/-! ## The group cache after claim extraction -/

theorem stringArrayLoop_error (elems : List Json) (retArr : List GoString) (e : GoError)
    (h : (stringArrayLoop elems retArr).2 = some e) : (stringArrayLoop elems retArr).1 = [] := by
  induction elems generalizing retArr with
  | nil => simp [stringArrayLoop] at h
  | cons x xs ih =>
    cases x with
    | null => exact ih _ (by simpa [stringArrayLoop] using h)
    | string v => exact ih _ (by simpa [stringArrayLoop] using h)
    | bool b => rfl
    | number t => rfl
    | array a => rfl
    | object o => rfl

theorem Json.StringArray_error (j : Json) (e : GoError) (h : j.StringArray.2 = some e) :
    j.StringArray.1 = [] := by
  cases j with
  | array elems => exact stringArrayLoop_error elems [] e h
  | null => rfl
  | bool b => rfl
  | number t => rfl
  | string v => rfl
  | object o => rfl

/-- A failed group lookup returns no groups: every error return of
`getUserGroups` carries a nil slice. -/
theorem getUserGroups_error_nil (lib : Lib) (w : World) (p : PassportProvider)
    (token : GoString) (g : List GoString) (e : GoError)
    (h : getUserGroups lib w p token = .returned (g, some e)) : g = [] := by
  unfold getUserGroups at h
  cases hprofile : p.ProviderData.ProfileURL with
  | none => simp [hprofile] at h
  | some profileURL =>
    simp only [hprofile] at h
    split at h
    · simp at h
    · next req hreq =>
      cases hapi : apiRequest lib w p
          { req with
            Header := Values.Set
              (Values.Set req.Header (str "Accept") (str "application/json"))
              (str "Authorization") (str "Bearer " ++ token) } with
      | panicked => simp [hapi, Outcome.bind] at h
      | returned r =>
        obtain ⟨j, err⟩ := r
        rw [hapi] at h
        cases err with
        | some err' =>
          cases j <;> simp [Outcome.bind] at h <;> exact h.1
        | none =>
          cases j with
          | none => simp [Outcome.bind] at h
          | some json =>
            simp only [Outcome.bind] at h
            cases hs : (json.Get (str "group")).String with
            | mk groups e2 =>
              rw [hs] at h
              cases e2 with
              | none => simp at h
              | some e2' =>
                simp only [Outcome.returned.injEq] at h
                have h2 : (json.Get (str "group")).StringArray.2 = some e := by rw [h]
                have h1 := Json.StringArray_error _ e h2
                rw [h] at h1
                exact h1

/-- What a call of `GetEmailAddress` that returns does to the provider: nothing,
or one `Store` into the group cache under the email it returns. -/
theorem GetEmailAddress_returned (lib : Lib) (w : World) (p p' : PassportProvider)
    (s : Option SessionState) (e : GoString) (err : Option GoError)
    (h : GetEmailAddress lib w p s = .returned (p', e, err)) :
    (p' = p ∧ e = [])
    ∨ ∃ sess token sub, s = some sess
        ∧ lib.jwtParse sess.AccessToken p.publicKey = .ok token
        ∧ token.Valid = true
        ∧ GoMap.get token.Claims (str "sub") = some (.string sub)
        ∧ err = none
        ∧ ((1 < (Split (lib.ToLower sub) 92).length
              ∧ ∃ r, getUserGroups lib w p token.Raw = .returned r
                  ∧ p' = { p with userGroups := GoMap.set p.userGroups e r.1 })
            ∨ (¬ 1 < (Split (lib.ToLower sub) 92).length
              ∧ p' = { p with userGroups := GoMap.set p.userGroups e [str "local"] })) := by
  cases s with
  | none => simp [GetEmailAddress] at h
  | some sess =>
    cases hparse : lib.jwtParse sess.AccessToken p.publicKey with
    | error e0 =>
      simp [GetEmailAddress, hparse] at h
      exact Or.inl ⟨h.1.symm, h.2.1⟩
    | ok token =>
      by_cases hvalid : token.Valid = true
      · cases hsub : GoMap.get token.Claims (str "sub") with
        | none => simp [GetEmailAddress, hparse, hvalid, hsub] at h
        | some claim =>
          cases claim with
          | string sub =>
            right
            refine ⟨sess, token, sub, rfl, hparse, hvalid, hsub, ?_⟩
            by_cases hlen : 1 < (Split (lib.ToLower sub) 92).length
            · cases hug : getUserGroups lib w p token.Raw with
              | panicked => simp [GetEmailAddress, hparse, hvalid, hsub, hlen, hug, Outcome.bind] at h
              | returned r =>
                simp [GetEmailAddress, hparse, hvalid, hsub, hlen, hug, Outcome.bind] at h
                obtain ⟨hp, he, herr⟩ := h
                refine ⟨herr.symm, Or.inl ⟨hlen, r, rfl, ?_⟩⟩
                rw [← he, ← hp]
            · simp [GetEmailAddress, hparse, hvalid, hsub, hlen] at h
              obtain ⟨hp, he, herr⟩ := h
              refine ⟨herr.symm, Or.inr ⟨hlen, ?_⟩⟩
              rw [← he, ← hp]
          | null => simp [GetEmailAddress, hparse, hvalid, hsub] at h
          | bool b => simp [GetEmailAddress, hparse, hvalid, hsub] at h
          | number t => simp [GetEmailAddress, hparse, hvalid, hsub] at h
          | array a => simp [GetEmailAddress, hparse, hvalid, hsub] at h
          | object o => simp [GetEmailAddress, hparse, hvalid, hsub] at h
      · simp [GetEmailAddress, hparse, hvalid] at h
        exact Or.inl ⟨h.1.symm, h.2.1⟩

/-- C14. Whenever `GetEmailAddress` returns a non-empty email `e`, the group
cache holds an entry for `e` afterwards (and keeps one through every later call
of `GetEmailAddress`); the authorization table is untouched. When the group
lookup was made and failed, the entry is the empty group list, and a later
`ValidateRequest` for a session with Email `e` on a path whose resolved set
lacks `*` returns the plain denial `(false, nil)`. In every case such a
`ValidateRequest` returns a nil error, never "session need to be
re-established". -/
theorem GetEmailAddress_caches_groups (lib : Lib) (w : World) (p p' : PassportProvider)
    (s : Option SessionState) (e : GoString) (err : Option GoError)
    (h : GetEmailAddress lib w p s = .returned (p', e, err)) (he : e ≠ []) :
    (∃ G, GoMap.get p'.userGroups e = some G)
    ∧ p'.auth = p.auth
    ∧ (∀ sess token sub g er, s = some sess →
        lib.jwtParse sess.AccessToken p.publicKey = .ok token →
        GoMap.get token.Claims (str "sub") = some (.string sub) →
        1 < (Split (lib.ToLower sub) 92).length →
        getUserGroups lib w p token.Raw = .returned (g, some er) →
        GoMap.get p'.userGroups e = some []
        ∧ ∀ req s', s'.Email = e →
            GoMap.get (getAllowedGroups p' (requestURI req)) (str "*") = none →
            ValidateRequest p' req (some s') = (false, none))
    ∧ (∀ req s', s'.Email = e →
        GoMap.get (getAllowedGroups p' (requestURI req)) (str "*") = none →
        (ValidateRequest p' req (some s')).2 = none
        ∧ ValidateRequest p' req (some s')
            ≠ (false, some (GoError.new (str "session need to be re-established"))))
    ∧ (∀ (lib₂ : Lib) (w₂ : World) s₂ p₂ e₂ err₂,
        GetEmailAddress lib₂ w₂ p' s₂ = .returned (p₂, e₂, err₂) →
        ∃ G, GoMap.get p₂.userGroups e = some G) := by
  rcases GetEmailAddress_returned lib w p p' s e err h with ⟨_, hnil⟩ | hstore
  · exact absurd hnil he
  obtain ⟨sess, token, sub, hs, hparse, _, hsub, _, hbranch⟩ := hstore
  have hentry : ∃ G, GoMap.get p'.userGroups e = some G := by
    rcases hbranch with ⟨_, r, _, hp⟩ | ⟨_, hp⟩
    · exact ⟨r.1, by rw [hp]; simp [GoMap.get_set]⟩
    · exact ⟨[str "local"], by rw [hp]; simp [GoMap.get_set]⟩
  have hauth : p'.auth = p.auth := by
    rcases hbranch with ⟨_, r, _, hp⟩ | ⟨_, hp⟩ <;> rw [hp]
  have hnoerr : ∀ req s', s'.Email = e →
      GoMap.get (getAllowedGroups p' (requestURI req)) (str "*") = none →
      (ValidateRequest p' req (some s')).2 = none := by
    intro req s' hmail hstar
    obtain ⟨G, hG⟩ := hentry
    simp only [ValidateRequest, hstar, hmail, hG]
    split <;> rfl
  refine ⟨hentry, hauth, ?_, ?_, ?_⟩
  · intro sess' token' sub' g er hs' hparse' hsub' hlen hfail
    have hsess : sess' = sess := by
      rw [hs] at hs'
      exact (Option.some.inj hs').symm
    subst hsess
    have htok : token' = token := by
      rw [hparse] at hparse'
      exact (Except.ok.inj hparse').symm
    subst htok
    have hsubeq : sub' = sub := by
      rw [hsub] at hsub'
      simpa using hsub'.symm
    subst hsubeq
    have hget : GoMap.get p'.userGroups e = some [] := by
      rcases hbranch with ⟨_, r, hr, hp⟩ | ⟨hshort, _⟩
      · rw [hfail] at hr
        have hr' : r = (g, some er) := (Outcome.returned.inj hr).symm
        have hg : g = [] := getUserGroups_error_nil lib w p token'.Raw g er hfail
        rw [hp, hr', hg]
        simp [GoMap.get_set]
      · exact absurd hlen hshort
    refine ⟨hget, ?_⟩
    intro req s' hmail hstar
    simp [ValidateRequest, hstar, hmail, hget, anyGroupAllowed]
  · intro req s' hmail hstar
    have h2 := hnoerr req s' hmail hstar
    refine ⟨h2, ?_⟩
    intro hbad
    rw [hbad] at h2
    simp at h2
  · intro lib₂ w₂ s₂ p₂ e₂ err₂ h₂
    obtain ⟨G, hG⟩ := hentry
    rcases GetEmailAddress_returned lib₂ w₂ p' p₂ s₂ e₂ err₂ h₂ with ⟨hp, _⟩ | hstore₂
    · exact ⟨G, by rw [hp]; exact hG⟩
    · obtain ⟨_, _, _, _, _, _, _, _, hbranch₂⟩ := hstore₂
      rcases hbranch₂ with ⟨_, r, _, hp⟩ | ⟨_, hp⟩
      · rw [hp]
        by_cases hee : e₂ = e
        · exact ⟨r.1, by simp [GoMap.get_set, hee]⟩
        · exact ⟨G, by simp [GoMap.get_set, hee, hG]⟩
      · rw [hp]
        by_cases hee : e₂ = e
        · exact ⟨[str "local"], by simp [GoMap.get_set, hee]⟩
        · exact ⟨G, by simp [GoMap.get_set, hee, hG]⟩

set_option maxRecDepth 100000 in
/-- Witness for C14: the profile endpoint answers 500, so the lookup of the
groups of `user@kontur` fails; the cache then holds the empty list under that
email, and a request under `test.com`, open to the group `ops` only, is
denied with a nil error. -/
theorem GetEmailAddress_caches_groups_witness :
    GoMap.get
        ({ ProviderData :=
            { ProfileURL := some { Scheme := str "https", Host := str "passport.test.com",
                                   Path := str "/connect/userinfo" },
              RedeemURL := some { Scheme := str "https", Host := str "passport.test.com",
                                  Path := str "/connect/token" } },
           userGroups := [(str "user@kontur", [])],
           auth := [(str "test.com", [str "ops"])] } : PassportProvider).userGroups
        (str "user@kontur") = some []
    ∧ ∀ req s', s'.Email = str "user@kontur" →
        GoMap.get
          (getAllowedGroups
            { ProviderData :=
                { ProfileURL := some { Scheme := str "https", Host := str "passport.test.com",
                                       Path := str "/connect/userinfo" },
                  RedeemURL := some { Scheme := str "https", Host := str "passport.test.com",
                                      Path := str "/connect/token" } },
              userGroups := [(str "user@kontur", [])],
              auth := [(str "test.com", [str "ops"])] } (requestURI req)) (str "*") = none →
        ValidateRequest
          { ProviderData :=
              { ProfileURL := some { Scheme := str "https", Host := str "passport.test.com",
                                     Path := str "/connect/userinfo" },
                RedeemURL := some { Scheme := str "https", Host := str "passport.test.com",
                                    Path := str "/connect/token" } },
            userGroups := [(str "user@kontur", [])],
            auth := [(str "test.com", [str "ops"])] } req (some s') = (false, none) :=
  (GetEmailAddress_caches_groups exampleLib (exampleWorld 500 (str "internal error"))
    { ProviderData :=
        { ProfileURL := some { Scheme := str "https", Host := str "passport.test.com",
                               Path := str "/connect/userinfo" },
          RedeemURL := some { Scheme := str "https", Host := str "passport.test.com",
                              Path := str "/connect/token" } },
      auth := [(str "test.com", [str "ops"])] }
    { ProviderData :=
        { ProfileURL := some { Scheme := str "https", Host := str "passport.test.com",
                               Path := str "/connect/userinfo" },
          RedeemURL := some { Scheme := str "https", Host := str "passport.test.com",
                              Path := str "/connect/token" } },
      userGroups := [(str "user@kontur", [])],
      auth := [(str "test.com", [str "ops"])] }
    (some { AccessToken := str "jwt.of.domain-user" }) (str "user@kontur") none
    (by rfl) (by decide)).2.2.1
    { AccessToken := str "jwt.of.domain-user" }
    { Raw := str "jwt.of.domain-user", Valid := true,
      Claims := [(str "sub", .string (str "KONTUR\\User"))] }
    (str "KONTUR\\User") []
    (.new (str "got 500 from \"https://passport.test.com/connect/token\" internal error"))
    rfl rfl rfl (by decide) (by rfl)

end Passport
